import Mathlib

/-!
# Shopcart admin page script (`service/static/js/rest_api.js`)

A shallow embedding of the page script: the form inputs, the status area
(`#flash_message`), the results table (`#search_results`) and the log of issued
AJAX requests are an explicit `Page` state; every click handler and every
`done`/`fail` callback is a function on that state.
-/

namespace Shopcarts

/-! ## The tracked form inputs -/

/-- The text inputs the script reads with `.val()` and writes with `.val(x)`.
Field `user_id` is `#shopcart_user_id`, `item_id` is `#shopcart_item_id`,
`description` is `#shopcart_item_description`, `price` is `#shopcart_item_price`,
`quantity` is `#shopcart_item_quantity`, `stock` is `#shopcart_item_stock`,
`purchase_limit` is `#shopcart_item_purchase_limit`, `created_at` is
`#shopcart_item_created_at`, and the last five are `#shopcart_price_range`,
`#shopcart_quantity_range`, `#shopcart_min_price`, `#shopcart_max_price`,
`#shopcart_created_at_range`. -/
structure Form where
  user_id : String
  item_id : String
  description : String
  price : String
  quantity : String
  stock : String
  purchase_limit : String
  created_at : String
  price_range : String
  quantity_range : String
  min_price : String
  max_price : String
  created_at_range : String
  deriving DecidableEq, Repr

/-! ## Query-string construction (`#search-btn`, `#search_user-btn`) -/

/-- One filter block of the search handlers:
`if (v) { if (queryString.length > 0) { queryString += '&key=' + v; } else { queryString += 'key=' + v; } }`.
The two literals of the block are passed as written in the source. -/
def addFilter (queryString ampKeyEq keyEq v : String) : String :=
  if v ≠ "" then
    if queryString.length > 0 then queryString ++ (ampKeyEq ++ v)
    else queryString ++ (keyEq ++ v)
  else queryString

/-- The `queryString` local of the `#search-btn` click handler after its nine
filter blocks (source lines 421-489). The first block has no length test. -/
def search_queryString (f : Form) : String :=
  let queryString := ""
  let queryString := if f.user_id ≠ "" then queryString ++ ("user_id=" ++ f.user_id) else queryString
  let queryString := addFilter queryString "&item_id=" "item_id=" f.item_id
  let queryString := addFilter queryString "&price=" "price=" f.price
  let queryString := addFilter queryString "&quantity=" "quantity=" f.quantity
  let queryString := addFilter queryString "&price_range=" "price_range=" f.price_range
  let queryString := addFilter queryString "&quantity_range=" "quantity_range=" f.quantity_range
  let queryString := addFilter queryString "&min-price=" "min-price=" f.min_price
  let queryString := addFilter queryString "&max-price=" "max-price=" f.max_price
  let queryString := addFilter queryString "&created_at_range=" "created_at_range=" f.created_at_range
  queryString

/-- The `queryString` local of the `#search_user-btn` click handler after its
eight filter blocks (source lines 535-604); `user_id` is not a filter here. -/
def search_user_queryString (f : Form) : String :=
  let queryString := ""
  let queryString := addFilter queryString "&item_id=" "item_id=" f.item_id
  let queryString := addFilter queryString "&price=" "price=" f.price
  let queryString := addFilter queryString "&quantity=" "quantity=" f.quantity
  let queryString := addFilter queryString "&price_range=" "price_range=" f.price_range
  let queryString := addFilter queryString "&quantity_range=" "quantity_range=" f.quantity_range
  let queryString := addFilter queryString "&min-price=" "min-price=" f.min_price
  let queryString := addFilter queryString "&max-price=" "max-price=" f.max_price
  let queryString := addFilter queryString "&created_at_range=" "created_at_range=" f.created_at_range
  queryString

/-- The URL the `#search-btn` handler requests (source lines 494-498). -/
def search_url (f : Form) : String :=
  let queryString := search_queryString f
  let searchUrl := "/api/shopcarts"
  if queryString.length > 0 then searchUrl ++ ("?" ++ queryString) else searchUrl

/-- The URL the `#search_user-btn` handler requests (source lines 609-613). -/
def search_user_url (f : Form) : String :=
  let queryString := search_user_queryString f
  let searchUrl := "/api/shopcarts/" ++ f.user_id
  if queryString.length > 0 then searchUrl ++ ("?" ++ queryString) else searchUrl

/-! ### The query string as the specification words it -/

/-- The nine filters of the global search in their declared order, each with the
key the server recognises. -/
def searchFilters (f : Form) : List (String × String) :=
  [("user_id", f.user_id), ("item_id", f.item_id), ("price", f.price),
   ("quantity", f.quantity), ("price_range", f.price_range),
   ("quantity_range", f.quantity_range), ("min-price", f.min_price),
   ("max-price", f.max_price), ("created_at_range", f.created_at_range)]

/-- The eight filters of the per-user search: the global ones without `user_id`. -/
def searchUserFilters (f : Form) : List (String × String) :=
  (searchFilters f).tail

/-- The non-empty filters, in order. -/
def activeFilters (fs : List (String × String)) : List (String × String) :=
  fs.filter (fun kv => kv.2 ≠ "")

/-- Text `key=value` for each pair, the value transformed by `enc`. -/
def renderPairs (enc : String → String) (fs : List (String × String)) : List String :=
  fs.map (fun kv => kv.1 ++ "=" ++ enc kv.2)

/-! ### `encodeURIComponent` -/

/-- Characters `encodeURIComponent` leaves as they are: ASCII letters, decimal
digits and the marks `- _ . ! ~ * ( )` and the apostrophe (code 39). -/
def uriUnreserved (c : Char) : Bool :=
  c.isAlphanum || c ∈ ['-', '_', '.', '!', '~', '*', Char.ofNat 39, '(', ')']

/-- Upper-case hexadecimal digit of a value below sixteen. -/
def hexDigit (n : Nat) : Char :=
  if n < 10 then Char.ofNat (48 + n) else Char.ofNat (55 + n)

/-- The escape `%XX` of one octet. -/
def percentByte (b : UInt8) : List Char :=
  ['%', hexDigit (b.toNat / 16), hexDigit (b.toNat % 16)]

/-- What `encodeURIComponent` emits for one code point: itself when unreserved,
otherwise the escapes of its UTF-8 octets. -/
def encodeChar (c : Char) : List Char :=
  if uriUnreserved c then [c] else (String.utf8EncodeChar c).flatMap percentByte

/-- The standard library function `encodeURIComponent` on well-formed text (a
Lean `String` holds no lone surrogate, the one input on which it throws). -/
def encodeURIComponent (s : String) : String :=
  String.mk (s.data.flatMap encodeChar)

/-- The filter blocks of a handler, run over a list of key and value pairs. -/
def applyFilters (queryString : String) (fs : List (String × String)) : String :=
  fs.foldl (fun q kv => addFilter q ("&" ++ kv.1 ++ "=") (kv.1 ++ "=") kv.2) queryString

/-- A form whose only filter is a user id ending in an ampersand. -/
def trailingAmpForm : Form :=
  { user_id := "1&", item_id := "", description := "", price := "", quantity := "",
    stock := "", purchase_limit := "", created_at := "", price_range := "",
    quantity_range := "", min_price := "", max_price := "", created_at_range := "" }

/-- A form whose filters hold reserved characters. -/
def reservedForm : Form :=
  { user_id := "a&b", item_id := "7", description := "", price := "", quantity := "",
    stock := "", purchase_limit := "", created_at := "", price_range := "1 2",
    quantity_range := "", min_price := "", max_price := "", created_at_range := "" }

/-- A form with plain filters: user 42, item 7, a minimum price. -/
def plainForm : Form :=
  { user_id := "42", item_id := "7", description := "Book", price := "", quantity := "",
    stock := "", purchase_limit := "", created_at := "", price_range := "",
    quantity_range := "", min_price := "5", max_price := "", created_at_range := "" }

/-! ## JavaScript numbers

The script receives numbers in parsed JSON bodies, prints them with string
conversion and `toFixed`, and compares one with form text using `==`. A Number
is modelled by its exact value; the library functions below follow ECMA-262. -/

/-- A Number value: a finite value `± m * 2 ^ e`, an infinity or NaN. The
two zeros are `fin false 0 e` and `fin true 0 e`. -/
inductive JsNum where
  | fin (neg : Bool) (m : Nat) (e : Int)
  | inf (neg : Bool)
  | nan
  deriving DecidableEq, Repr

/-- A non-negative fraction `num / den`, kept unnormalised; `den` is positive
in every value built below. -/
structure Frac where
  num : Nat
  den : Nat
  deriving DecidableEq, Repr

namespace Frac

/-- The fraction `a ≤ b`, by cross multiplication. -/
def le (a b : Frac) : Bool := decide (a.num * b.den ≤ b.num * a.den)

/-- The fraction `a < b`, by cross multiplication. -/
def lt (a b : Frac) : Bool := decide (a.num * b.den < b.num * a.den)

/-- Sum of two fractions. -/
def add (a b : Frac) : Frac := ⟨a.num * b.den + b.num * a.den, a.den * b.den⟩

/-- Difference of two fractions, zero when `b` exceeds `a`. -/
def sub (a b : Frac) : Frac := ⟨a.num * b.den - b.num * a.den, a.den * b.den⟩

/-- Distance between two fractions. -/
def dist (a b : Frac) : Frac := if le a b then sub b a else sub a b

/-- The power `base ^ p` for an integer exponent. -/
def pow (base : Nat) (p : Int) : Frac :=
  if 0 ≤ p then ⟨base ^ p.toNat, 1⟩ else ⟨1, base ^ (-p).toNat⟩

/-- Product of two fractions. -/
def mul (a b : Frac) : Frac := ⟨a.num * b.num, a.den * b.den⟩

/-- Quotient of two fractions. -/
def div (a b : Frac) : Frac := ⟨a.num * b.den, a.den * b.num⟩

/-- Integer part. -/
def floor (a : Frac) : Nat := a.num / a.den

/-- Nearest integer, ties to the even one. -/
def roundHalfEven (a : Frac) : Nat :=
  let f := a.num / a.den
  let r := a.num % a.den
  if 2 * r < a.den then f
  else if a.den < 2 * r then f + 1
  else if f % 2 = 0 then f else f + 1

/-- Nearest integer, ties upward. -/
def roundHalfUp (a : Frac) : Nat := (2 * a.num + a.den) / (2 * a.den)

/-- The exact rational value. -/
def toRat (a : Frac) : ℚ := (a.num : ℚ) / (a.den : ℚ)

end Frac

/-- Number of digits of `n` in the given base (zero for `n = 0`); `fuel` bounds
the recursion and `n` itself is always enough. -/
def digitCount (base : Nat) : Nat → Nat → Nat
  | 0, _ => 0
  | fuel + 1, n => if n = 0 then 0 else digitCount base fuel (n / base) + 1

/-- The integer `E` with `base ^ E ≤ q < base ^ (E + 1)`, for positive `q`. -/
def floorLog (base : Nat) (q : Frac) : Int :=
  let E0 : Int := (digitCount base q.num q.num : Int) - (digitCount base q.den q.den : Int)
  if Frac.le (Frac.pow base E0) q then E0 else E0 - 1

/-- Magnitude `m * 2 ^ e` as a fraction. -/
def JsNum.mag (m : Nat) (e : Int) : Frac :=
  Frac.mul ⟨m, 1⟩ (Frac.pow 2 e)

/-- The exact value of a finite Number, zero for the others. -/
def JsNum.toRat : JsNum → ℚ
  | .fin neg m e => (if neg then -1 else 1) * (JsNum.mag m e).toRat
  | _ => 0

/-- Exponent of the unit in the last place of the double nearest to positive
`q`: 52 below the binary exponent, not below `-1074`. -/
def ulpExp (q : Frac) : Int :=
  max (floorLog 2 q - 52) (-1074)

/-- The Number nearest to `± q` (IEEE 754 binary64, round to nearest, ties to
even), as JSON and text conversion produce it; a rounded magnitude of
`2 ^ 1024` or more is an infinity. -/
def roundToDouble (neg : Bool) (q : Frac) : JsNum :=
  if q.num = 0 then .fin neg 0 0
  else
    let e := ulpExp q
    let M := Frac.roundHalfEven (Frac.div q (Frac.pow 2 e))
    if 1024 ≤ floorLog 2 (JsNum.mag M e) then .inf neg else .fin neg M e

/-- The Number a JSON body denotes by the decimal `± digits * 10 ^ exp10`. -/
def JsNum.ofDecimal (neg : Bool) (digits : Nat) (exp10 : Int) : JsNum :=
  roundToDouble neg (Frac.mul ⟨digits, 1⟩ (Frac.pow 10 exp10))

/-- The Number of a natural number below `2 ^ 53`, such as an array length:
those are Numbers exactly. -/
def JsNum.ofNat (n : Nat) : JsNum := .fin false n 0

/-- Decimal digits of a natural number. -/
def natDigits (n : Nat) : String := String.mk (Nat.toDigits 10 n)

/-- A run of `n` zero digits. -/
def zeros (n : Nat) : String := String.mk (List.replicate n '0')

/-- Whether value `v` rounds to the double `q`: it lies between the midpoints to
the neighbouring doubles, the midpoints included when the mantissa is even. -/
def roundsTo (q v : Frac) : Bool :=
  let e := ulpExp q
  let M := Frac.floor (Frac.div q (Frac.pow 2 e))
  let halfUlp := Frac.pow 2 (e - 1)
  let lowHalf := if M = 2 ^ 52 ∧ -1074 < e then Frac.pow 2 (e - 2) else halfUlp
  let lo := Frac.sub q lowHalf
  let hi := Frac.add q halfUlp
  if M % 2 = 0 then Frac.le lo v && Frac.le v hi else Frac.lt lo v && Frac.lt v hi

/-- The candidates `(s, n)` with `k` digits next to positive `q`, where `n0` is
the decimal exponent of `q`: the multiple of `10 ^ (n0 - k)` below and above. -/
def digitCandidates (q : Frac) (n0 : Int) (k : Nat) : List (Nat × Int) :=
  let fl := Frac.floor (Frac.mul q (Frac.pow 10 ((k : Int) - n0)))
  let up : Nat × Int := if fl + 1 < 10 ^ k then (fl + 1, n0) else (10 ^ (k - 1), n0 + 1)
  [(fl, n0), up]

/-- The value `s * 10 ^ (n - k)` of a candidate. -/
def candidateValue (k : Nat) (c : Nat × Int) : Frac :=
  Frac.mul ⟨c.1, 1⟩ (Frac.pow 10 (c.2 - (k : Int)))

/-- Among the candidates with `k` digits that round to `q`, the one nearest to
`q`, the even one on a tie. -/
def bestCandidate (q : Frac) (n0 : Int) (k : Nat) : Option (Nat × Int) :=
  let ok := (digitCandidates q n0 k).filter
    (fun c => decide (10 ^ (k - 1) ≤ c.1) && roundsTo q (candidateValue k c))
  match ok with
  | [] => none
  | [c] => some c
  | c :: d :: _ =>
    let dc := Frac.dist (candidateValue k c) q
    let dd := Frac.dist (candidateValue k d) q
    if Frac.lt dc dd then some c
    else if Frac.lt dd dc then some d
    else if c.1 % 2 = 0 then some c else some d

/-- The shortest digits `(s, k, n)` that identify positive `q`: the least `k`
from `k` on with a candidate; after `fuel` tries the candidate below is taken. -/
def shortestDigits (q : Frac) (n0 : Int) : Nat → Nat → Nat × Nat × Int
  | 0, k => (Frac.floor (Frac.mul q (Frac.pow 10 ((k : Int) - n0))), k, n0)
  | fuel + 1, k =>
    match bestCandidate q n0 k with
    | some c => (c.1, k, c.2)
    | none => shortestDigits q n0 fuel (k + 1)

/-- Signed decimal exponent as `Number::toString` prints it after `e`. -/
def exponentText (x : Int) : String :=
  (if 0 ≤ x then "+" else "-") ++ natDigits x.natAbs

/-- The layout steps of `Number::toString` for digits `s` of length `k` and
decimal exponent `n`. -/
def layoutDigits (s : Nat) (k : Nat) (n : Int) : String :=
  let ds := natDigits s
  if (k : Int) ≤ n ∧ n ≤ 21 then ds ++ zeros (n - (k : Int)).toNat
  else if 0 < n ∧ n ≤ 21 then
    String.mk (ds.data.take n.toNat) ++ "." ++ String.mk (ds.data.drop n.toNat)
  else if -6 < n ∧ n ≤ 0 then "0." ++ zeros (-n).toNat ++ ds
  else if k = 1 then ds ++ "e" ++ exponentText (n - 1)
  else String.mk (ds.data.take 1) ++ "." ++ String.mk (ds.data.drop 1) ++ "e"
    ++ exponentText (n - 1)

/-- The function `Number::toString` (radix ten) of ECMA-262. -/
def numberToString : JsNum → String
  | .nan => "NaN"
  | .inf neg => if neg then "-Infinity" else "Infinity"
  | .fin neg m e =>
    if m = 0 then "0"
    else
      let q := JsNum.mag m e
      let r := shortestDigits q (floorLog 10 q + 1) 17 1
      (if neg then "-" else "") ++ layoutDigits r.1 r.2.1 r.2.2

/-- The method `Number.prototype.toFixed` with two fraction digits: values of
magnitude `10 ^ 21` or more and non-finite ones are printed by
`Number::toString`; the others as the nearest multiple of `0.01`, ties upward. -/
def toFixed2 : JsNum → String
  | .fin neg m e =>
    let x := JsNum.mag m e
    let s := if neg ∧ m ≠ 0 then "-" else ""
    if Frac.le (Frac.pow 10 21) x then s ++ numberToString (.fin false m e)
    else
      let n := Frac.roundHalfUp (Frac.mul x ⟨100, 1⟩)
      let m := if n = 0 then "0" else natDigits n
      let k := m.length
      let m := if k ≤ 2 then zeros (3 - k) ++ m else m
      let k := if k ≤ 2 then 3 else k
      s ++ (String.mk (m.data.take (k - 2)) ++ "." ++ String.mk (m.data.drop (k - 2)))
  | x => numberToString x

/-- Number equality `x == y` (also `===`): NaN equals nothing, the zeros are equal. -/
def numEq : JsNum → JsNum → Bool
  | .fin n1 m1 e1, .fin n2 m2 e2 =>
    let a := JsNum.mag m1 e1
    let b := JsNum.mag m2 e2
    (Frac.le a b && Frac.le b a) && (decide (n1 = n2) || decide (a.num = 0))
  | .inf n1, .inf n2 => decide (n1 = n2)
  | _, _ => false

/-- The test `x > 0` on Numbers. -/
def numPos : JsNum → Bool
  | .fin neg m _ => !neg && decide (m ≠ 0)
  | .inf neg => !neg
  | .nan => false

/-! ### Text to Number (`StringToNumber`) -/

/-- Code points of `StrWhiteSpaceChar`: white space and line terminators. -/
def isStrWhiteSpace (c : Char) : Bool :=
  c.toNat ∈ [0x09, 0x0A, 0x0B, 0x0C, 0x0D, 0x20, 0xA0, 0x1680, 0x2028, 0x2029,
    0x202F, 0x205F, 0x3000, 0xFEFF] || (0x2000 ≤ c.toNat && c.toNat ≤ 0x200A)

/-- Text without leading and trailing white space. -/
def trimWhiteSpace (cs : List Char) : List Char :=
  ((cs.dropWhile isStrWhiteSpace).reverse.dropWhile isStrWhiteSpace).reverse

/-- Value of one digit character in bases up to sixteen. -/
def digitValue (c : Char) : Option Nat :=
  if '0' ≤ c ∧ c ≤ '9' then some (c.toNat - 48)
  else if 'a' ≤ c ∧ c ≤ 'f' then some (c.toNat - 87)
  else if 'A' ≤ c ∧ c ≤ 'F' then some (c.toNat - 55)
  else none

/-- Value of a non-empty run of digits of the given base. -/
def parseDigits (base : Nat) (cs : List Char) : Option Nat :=
  if cs = [] then none
  else cs.foldlM (fun acc c =>
    match digitValue c with
    | some d => if d < base then some (acc * base + d) else none
    | none => none) 0

/-- The exponent part after `e`: an optional sign and decimal digits. -/
def parseExponent (cs : List Char) : Option Int :=
  match cs with
  | '+' :: r => (parseDigits 10 r).map Int.ofNat
  | '-' :: r => (parseDigits 10 r).map (fun n => -Int.ofNat n)
  | r => (parseDigits 10 r).map Int.ofNat

/-- The production `StrUnsignedDecimalLiteral` without `Infinity`: the digits
and the power of ten of `digits . digits? exp?`, `. digits exp?`, `digits exp?`. -/
def parseUnsignedDecimal (cs : List Char) : Option (Nat × Int) :=
  let mant := cs.takeWhile (fun c => c ≠ 'e' && c ≠ 'E')
  let rest := cs.dropWhile (fun c => c ≠ 'e' && c ≠ 'E')
  let ip := mant.takeWhile (fun c => c ≠ '.')
  let fp := mant.dropWhile (fun c => c ≠ '.')
  let ex : Option Int := match rest with
    | [] => some 0
    | _ :: r => parseExponent r
  let digits : Option (Nat × Nat) := match fp with
    | [] => (parseDigits 10 ip).map (fun n => (n, 0))
    | _ :: fr =>
      if ip = [] then (parseDigits 10 fr).map (fun n => (n, fr.length))
      else if fr = [] then (parseDigits 10 ip).map (fun n => (n, 0))
      else (parseDigits 10 (ip ++ fr)).map (fun n => (n, fr.length))
  match digits, ex with
  | some (n, scale), some x => some (n, x - (scale : Int))
  | _, _ => none

/-- The production `StrDecimalLiteral` after its sign. -/
def parseDecimalBody (neg : Bool) (cs : List Char) : JsNum :=
  if cs = "Infinity".data then .inf neg
  else match parseUnsignedDecimal cs with
    | some (n, x) => JsNum.ofDecimal neg n x
    | none => .nan

/-- A non-decimal integer literal of the given base, NaN when malformed. -/
def parseRadix (base : Nat) (cs : List Char) : JsNum :=
  match parseDigits base cs with
  | some n => roundToDouble false ⟨n, 1⟩
  | none => .nan

/-- The abstract operation `StringToNumber`: the Number a text denotes, `+0` for
blank text and NaN for text that is no numeric literal. -/
def stringToNumber (s : String) : JsNum :=
  match trimWhiteSpace s.data with
  | [] => .fin false 0 0
  | '0' :: 'x' :: r => parseRadix 16 r
  | '0' :: 'X' :: r => parseRadix 16 r
  | '0' :: 'o' :: r => parseRadix 8 r
  | '0' :: 'O' :: r => parseRadix 8 r
  | '0' :: 'b' :: r => parseRadix 2 r
  | '0' :: 'B' :: r => parseRadix 2 r
  | '+' :: r => parseDecimalBody false r
  | '-' :: r => parseDecimalBody true r
  | cs => parseDecimalBody false cs

/-- The longest prefix of digits of the given base. -/
def digitPrefix (base : Nat) (cs : List Char) : List Char :=
  cs.takeWhile (fun c =>
    match digitValue c with
    | some d => decide (d < base)
    | none => false)

/-- The function `parseInt(text)` called without a radix: leading white space
is skipped, a sign and a prefix `0x` are read, then the longest run of digits;
NaN when there is no digit. -/
def parseInt (s : String) : JsNum :=
  let cs := s.data.dropWhile isStrWhiteSpace
  let neg := cs.head? == some '-'
  let cs := match cs with
    | '+' :: r => r
    | '-' :: r => r
    | r => r
  let radix : Nat × List Char := match cs with
    | '0' :: 'x' :: r => (16, r)
    | '0' :: 'X' :: r => (16, r)
    | r => (10, r)
  match parseDigits radix.1 (digitPrefix radix.1 radix.2) with
  | some n => roundToDouble neg ⟨n, 1⟩
  | none => .nan

/-! ## JavaScript values -/

/-- The exception a handler can raise: a `TypeError`. -/
inductive JsError where
  | typeError
  deriving DecidableEq, Repr

/-- A value of a parsed JSON body, or `undefined`. An object is the list of its
own properties; the first binding of a name is its value. -/
inductive JsVal where
  | undefined
  | null
  | bool (b : Bool)
  | num (x : JsNum)
  | str (s : String)
  | arr (xs : List JsVal)
  | obj (fields : List (String × JsVal))
  deriving Repr

/-- Length of text in UTF-16 code units, the `length` of a JavaScript string. -/
def utf16Length (s : String) : Nat :=
  s.data.foldl (fun n c => n + (if c.toNat < 0x10000 then 1 else 2)) 0

/-- Property read `v.key` for the data properties the script reads (`user_id`,
`items`, `message`, `error`, `length`, ...): reading from `undefined` or `null`
raises a `TypeError`, a missing property is `undefined`. -/
def JsVal.get (v : JsVal) (key : String) : Except JsError JsVal :=
  match v with
  | .undefined => .error .typeError
  | .null => .error .typeError
  | .obj fields => .ok ((fields.lookup key).getD .undefined)
  | .arr xs => .ok (if key = "length" then .num (JsNum.ofNat xs.length) else .undefined)
  | .str s => .ok (if key = "length" then .num (JsNum.ofNat (utf16Length s)) else .undefined)
  | _ => .ok .undefined

/-- Optional chaining `v?.key`: `undefined` when `v` is `undefined` or `null`. -/
def JsVal.getOpt (v : JsVal) (key : String) : Except JsError JsVal :=
  match v with
  | .undefined => .ok .undefined
  | .null => .ok .undefined
  | w => w.get key

/-- The conversion `ToBoolean`. -/
def JsVal.truthy : JsVal → Bool
  | .undefined => false
  | .null => false
  | .bool b => b
  | .num (.fin _ m _) => decide (m ≠ 0)
  | .num (.inf _) => true
  | .num .nan => false
  | .str s => decide (s ≠ "")
  | .arr _ => true
  | .obj _ => true

/-- The operator `a || b` with `b` a value already at hand. -/
def JsVal.or (a b : JsVal) : JsVal :=
  if a.truthy then a else b

/-- The test `Array.isArray(v)`. -/
def JsVal.isArray : JsVal → Bool
  | .arr _ => true
  | _ => false

mutual
/-- The conversion `ToString`, as a template literal applies it. An array prints
its elements joined by commas; an object prints `[object Object]`, and raises a
`TypeError` when an own `toString` property hides the inherited method. -/
def JsVal.toStr : JsVal → Except JsError String
  | .undefined => .ok "undefined"
  | .null => .ok "null"
  | .bool b => .ok (if b then "true" else "false")
  | .num x => .ok (numberToString x)
  | .str s => .ok s
  | .arr xs => (JsVal.elemTexts xs).map (String.intercalate ",")
  | .obj fields =>
    if fields.any (fun kv => kv.1 = "toString") then .error .typeError
    else .ok "[object Object]"
/-- The element texts `Array.prototype.join` concatenates: empty for
`undefined` and `null`, `ToString` of the element otherwise. -/
def JsVal.elemTexts : List JsVal → Except JsError (List String)
  | [] => .ok []
  | .undefined :: rest => (JsVal.elemTexts rest).map (fun ts => "" :: ts)
  | .null :: rest => (JsVal.elemTexts rest).map (fun ts => "" :: ts)
  | x :: rest =>
    match JsVal.toStr x with
    | .error e => .error e
    | .ok t => (JsVal.elemTexts rest).map (fun ts => t :: ts)
end

/-- The conversion `ToNumber`. -/
def JsVal.toNumber : JsVal → Except JsError JsNum
  | .undefined => .ok .nan
  | .null => .ok (.fin false 0 0)
  | .bool b => .ok (if b then JsNum.ofNat 1 else .fin false 0 0)
  | .num x => .ok x
  | .str s => .ok (stringToNumber s)
  | v => (JsVal.toStr v).map stringToNumber

/-- The comparison `v > 0`. -/
def JsVal.gtZero (v : JsVal) : Except JsError Bool :=
  (JsVal.toNumber v).map numPos

/-- Loose equality `v == s` of a value with a piece of text (`IsLooselyEqual`):
a Number or Boolean is compared with the Number the text denotes, a string with
the text itself, an object through its primitive; `undefined` and `null` equal
no text. -/
def JsVal.looseEqStr (v : JsVal) (s : String) : Except JsError Bool :=
  match v with
  | .undefined => .ok false
  | .null => .ok false
  | .bool b => .ok (numEq (if b then JsNum.ofNat 1 else .fin false 0 0) (stringToNumber s))
  | .num x => .ok (numEq x (stringToNumber s))
  | .str t => .ok (decide (t = s))
  | w => (JsVal.toStr w).map (fun t => decide (t = s))

/-- What an input holds after jQuery `.val(v)`: empty text for `undefined` and
`null`, the text of `v` otherwise. -/
def JsVal.valText (v : JsVal) : Except JsError String :=
  match v with
  | .undefined => .ok ""
  | .null => .ok ""
  | w => w.toStr

deriving instance DecidableEq for Except

/-- Array iteration `v.forEach(f)` with an accumulator for the variables the
callback assigns; calling it on anything but an array raises a `TypeError`. -/
def JsVal.forEachM {σ : Type} (v : JsVal) (f : σ → JsVal → Except JsError σ) (init : σ) :
    Except JsError σ :=
  match v with
  | .arr xs => xs.foldlM f init
  | _ => .error .typeError

/-- The search loop of `Array.prototype.find`: the first element on which the
callback holds, `undefined` when there is none. -/
def findLoop (f : JsVal → Except JsError Bool) : List JsVal → Except JsError JsVal
  | [] => .ok .undefined
  | x :: rest =>
    match f x with
    | .error e => .error e
    | .ok true => .ok x
    | .ok false => findLoop f rest

/-- The call `v.find(f)`; on anything but an array it raises a `TypeError`. -/
def JsVal.find (v : JsVal) (f : JsVal → Except JsError Bool) : Except JsError JsVal :=
  match v with
  | .arr xs => findLoop f xs
  | _ => .error .typeError

/-- Element read `v[0]`: the first element of an array, the property `0` of an
object, the first character of a string, `undefined` when there is none. -/
def JsVal.first (v : JsVal) : Except JsError JsVal :=
  match v with
  | .undefined => .error .typeError
  | .null => .error .typeError
  | .arr xs => .ok (xs.head?.getD .undefined)
  | .obj fields => .ok ((fields.lookup "0").getD .undefined)
  | .str s => .ok (match s.data with
      | [] => .undefined
      | c :: _ => .str (String.singleton c))
  | _ => .ok .undefined

/-! ## The page -/

/-- An AJAX request as the script issues it: `type` and `url` of `$.ajax`; the
`contentType`, which is `application/json` in every call, and the `data` body
are not recorded. -/
structure Request where
  type : String
  url : String
  deriving DecidableEq, Repr

/-- A child of the status area `#flash_message`: a text node that shows exactly
`text`, or the nodes the browser parses from `markup` (tags become elements,
character references become the characters they name). -/
inductive FlashNode where
  | str (text : String)
  | html (markup : String)
  deriving DecidableEq, Repr

/-- The state the script reads and writes: the form inputs as `.val()` reads
them (the inputs are taken to be text inputs; the page markup is not part of
the script), the children of the status area `#flash_message` in order, the
markup inside `#search_results`, the markup inside `#shopcart_health_status`,
and the requests issued so far. -/
structure Page where
  form : Form
  flash : List FlashNode
  results : String
  health : String
  requests : List Request

/-- Where a run of statements ended: the page reached and the exception that
stopped the run, if one was raised. -/
structure Outcome where
  page : Page
  thrown : Option JsError

/-- Sequencing: the next statements run only when nothing was raised. -/
def Outcome.andThen (o : Outcome) (k : Page → Outcome) : Outcome :=
  match o.thrown with
  | none => k o.page
  | some _ => o

/-- A run that ends normally in page `p`. -/
def Outcome.done (p : Page) : Outcome := ⟨p, none⟩

/-- The call `$.ajax` with the given `type` and `url`, appended to the log. -/
def Page.ajax (p : Page) (type url : String) : Page :=
  { p with requests := p.requests ++ [⟨type, url⟩] }

/-- The statement `$("#flash_message").empty()`. -/
def Page.emptyFlash (p : Page) : Page :=
  { p with flash := [] }

/-- The value a text input holds after the text `t` is assigned to it: the
text without its line feeds (code 10) and carriage returns (code 13). -/
def stripLineBreaks (t : String) : String :=
  String.mk (t.data.filter (fun c => c ≠ Char.ofNat 10 && c ≠ Char.ofNat 13))

/-- One statement `$(input).val(res.key)` of `update_form_data`: the property
read, the conversion to text and the assignment to the text input. -/
def setInput (set : Form → String → Form) (res : JsVal) (key : String) (p : Page) : Outcome :=
  match res.get key with
  | .error e => ⟨p, some e⟩
  | .ok v =>
    match v.valText with
    | .error e => ⟨p, some e⟩
    | .ok t => ⟨{ p with form := set p.form (stripLineBreaks t) }, none⟩

/-- The function `update_form_data(res)` (source lines 8-15). -/
def update_form_data (res : JsVal) (p : Page) : Outcome :=
  (setInput (fun f t => { f with user_id := t }) res "user_id" p).andThen fun p =>
  (setInput (fun f t => { f with item_id := t }) res "item_id" p).andThen fun p =>
  (setInput (fun f t => { f with description := t }) res "description" p).andThen fun p =>
  (setInput (fun f t => { f with price := t }) res "price" p).andThen fun p =>
  (setInput (fun f t => { f with quantity := t }) res "quantity" p).andThen fun p =>
  setInput (fun f t => { f with created_at := t }) res "created_at" p

/-- The form after `clear_form_data()` (source lines 18-32): thirteen
assignments of the empty text. -/
def clearedForm (f : Form) : Form :=
  let f := { f with user_id := "" }
  let f := { f with item_id := "" }
  let f := { f with description := "" }
  let f := { f with price := "" }
  let f := { f with quantity := "" }
  let f := { f with stock := "" }
  let f := { f with purchase_limit := "" }
  let f := { f with created_at := "" }
  let f := { f with price_range := "" }
  let f := { f with quantity_range := "" }
  let f := { f with min_price := "" }
  let f := { f with max_price := "" }
  let f := { f with created_at_range := "" }
  f

/-- The function `clear_form_data()` on the page. -/
def clear_form_data (p : Page) : Page :=
  { p with form := clearedForm p.form }

/-! ### jQuery `.append(message)` -/

/-- A word character `\w` of a regular expression. -/
def isWordChar (c : Char) : Bool :=
  c.isAlphanum || c == '_'

/-- Whether the text goes on with word characters and then `;`, at least one of
them when `seen` is false: the tail `\w+;` of a character reference. -/
def wordThenSemicolon : Bool → List Char → Bool
  | _, [] => false
  | seen, c :: rest =>
    if isWordChar c then wordThenSemicolon true rest else seen && c == ';'

/-- Whether `#?\w+;` matches at the start of the text, as after an `&`. -/
def entityTail : List Char → Bool
  | '#' :: rest => wordThenSemicolon false rest
  | cs => wordThenSemicolon false cs

/-- The test `rhtml.test(text)` of jQuery, `rhtml = /<|&#?\w+;/`: the text has a
`<` or a character reference, and is therefore parsed as markup. -/
def hasMarkup : List Char → Bool
  | [] => false
  | c :: rest => c == '<' || (c == '&' && entityTail rest) || hasMarkup rest

/-- What `buildFragment` collects for the arguments of `.append`: a node, or a
value that is no node, taken over from an array-like object. -/
inductive Pending where
  | node (n : FlashNode)
  | raw (v : JsVal)

/-- Whether a value is the Number zero. -/
def JsVal.isZero : JsVal → Bool
  | .num (.fin _ m _) => decide (m = 0)
  | _ => false

/-- The arguments of `.append` after `domManip` has flattened them: the
elements of an array, the value itself otherwise. -/
def flattenArgs (message : JsVal) : List JsVal :=
  match message with
  | .arr xs => xs
  | v => [v]

/-- The first loop of `buildFragment` on one argument. A falsy argument other
than zero gives nothing. A plain object is merged as an array-like: it gives
itself when it has a truthy `nodeType`, its element `0` when its `length` is
positive (the loop over the collected values ends at the first one that is no
node, so later elements do not matter; a `length` too large to run through is
outside the model), and nothing otherwise. An array that is still an argument
after the flattening gives its elements as they are. Anything else gives one
node from its text: parsed markup when `rhtml` matches, a text node when
not. -/
def pendingOf (elem : JsVal) : Except JsError (List Pending) :=
  if elem.truthy || elem.isZero then
    match elem with
    | .obj fields =>
      if ((fields.lookup "nodeType").getD .undefined).truthy then .ok [.raw elem]
      else
        match ((fields.lookup "length").getD .undefined).toNumber with
        | .error e => .error e
        | .ok len =>
          if numPos len then .ok [.raw ((fields.lookup "0").getD .undefined)] else .ok []
    | .arr ys => .ok (ys.map Pending.raw)
    | v =>
      match v.toStr with
      | .error e => .error e
      | .ok t => .ok [.node (if hasMarkup t.data then .html t else .str t)]
  else .ok []

/-- The first loop of `buildFragment` on all arguments. -/
def collectPending : List JsVal → Except JsError (List Pending)
  | [] => .ok []
  | elem :: rest =>
    match pendingOf elem with
    | .error e => .error e
    | .ok here =>
      match collectPending rest with
      | .error e => .error e
      | .ok later => .ok (here ++ later)

/-- The second loop of `buildFragment`, `while ((elem = nodes[i++]))`: nodes
are appended; a falsy value ends the loop; `appendChild` of a truthy value that
is no node raises a `TypeError`. -/
def appendLoop : List Pending → Except JsError (List FlashNode)
  | [] => .ok []
  | .node n :: rest =>
    match appendLoop rest with
    | .error e => .error e
    | .ok ns => .ok (n :: ns)
  | .raw v :: _ => if v.truthy then .error .typeError else .ok []

/-- The children `$("#flash_message").append(message)` adds, or the exception
it raises. -/
def flashNodes (message : JsVal) : Except JsError (List FlashNode) :=
  match collectPending (flattenArgs message) with
  | .error e => .error e
  | .ok pending => appendLoop pending

/-- The function `flash_message(message)` (source lines 36-39), its effect on
the page: the status area is emptied, then the children of `.append(message)`
are added; when `.append` raises, the area stays empty. -/
def flash_message (message : JsVal) (p : Page) : Page :=
  let p := p.emptyFlash
  match flashNodes message with
  | .ok nodes => { p with flash := p.flash ++ nodes }
  | .error _ => p

/-- The exception `flash_message(message)` raises, if any; a text message
raises none. -/
def flash_raises (message : JsVal) : Option JsError :=
  match flashNodes message with
  | .ok _ => none
  | .error e => some e

/-- The statement `flash_message(message)` as the last statement of a callback. -/
def flashLast (message : JsVal) (p : Page) : Outcome :=
  ⟨flash_message message p, flash_raises message⟩

/-! ## Table rendering -/

/-- The markup both renderers start the table with. -/
def tableHead : String :=
  "<table class=\"table table-striped\" cellpadding=\"10\">"
    ++ "<thead><tr>"
    ++ "<th class=\"col-md-2\">User ID</th>"
    ++ "<th class=\"col-md-2\">Item ID</th>"
    ++ "<th class=\"col-md-4\">Description</th>"
    ++ "<th class=\"col-md-2\">Quantity</th>"
    ++ "<th class=\"col-md-2\">Price</th>"
    ++ "</tr></thead><tbody>"

/-- The markup both renderers end the table with. -/
def tableFoot : String := "</tbody></table>"

/-- The row template of both renderers, which differ in the indentation inside
the template literal only. -/
def rowMarkup (cellIndent closeIndent item_id user_id description quantity price : String) :
    String :=
  "<tr id=\"item_" ++ item_id ++ "\" class=\"item-row\" data-id=\"" ++ item_id
    ++ "\" data-user-id=\"" ++ user_id ++ "\">\n"
    ++ cellIndent ++ "<td>" ++ user_id ++ "</td>\n"
    ++ cellIndent ++ "<td>" ++ item_id ++ "</td>\n"
    ++ cellIndent ++ "<td>" ++ description ++ "</td>\n"
    ++ cellIndent ++ "<td>" ++ quantity ++ "</td>\n"
    ++ cellIndent ++ "<td>" ++ price ++ "</td>\n"
    ++ closeIndent ++ "</tr>"

/-- The text `${item.key}` of a template literal. -/
def fieldText (item : JsVal) (key : String) : Except JsError String :=
  match item.get key with
  | .error e => .error e
  | .ok v => v.toStr

/-- A row template filled from `item`. -/
def rowOf (cellIndent closeIndent : String) (item : JsVal) : Except JsError String := do
  let item_id ← fieldText item "item_id"
  let user_id ← fieldText item "user_id"
  let description ← fieldText item "description"
  let quantity ← fieldText item "quantity"
  let price ← fieldText item "price"
  pure (rowMarkup cellIndent closeIndent item_id user_id description quantity price)

/-- The function `formatItemRow(item)` (source lines 758-766). -/
def formatItemRow (item : JsVal) : Except JsError String :=
  rowOf "            " "        " item

/-- The loop body `table += formatItemRow(item)`. -/
def appendItemRow (table : String) (item : JsVal) : Except JsError String := do
  let row ← formatItemRow item
  pure (table ++ row)

/-- The callback of `data.forEach` in `formatSearchResults`: a shopcart (truthy
`items`) contributes a row for each of its items, anything else one row. -/
def appendEntryRows (table : String) (item : JsVal) : Except JsError String := do
  let items ← item.get "items"
  if items.truthy then items.forEachM appendItemRow table
  else appendItemRow table item

/-- The function `formatSearchResults(data)` (source lines 719-755). -/
def formatSearchResults (data : JsVal) : Except JsError String := do
  let table := tableHead
  let table ←
    if data.isArray then data.forEachM appendEntryRows table
    else do
      let items ← data.get "items"
      if items.truthy then items.forEachM appendItemRow table
      else appendItemRow table data
  pure (table ++ tableFoot)

/-- The inner callback of `display_search_results`: one row for `item`. -/
def appendSearchRow (table : String) (item : JsVal) : Except JsError String := do
  let row ← rowOf "                    " "                " item
  pure (table ++ row)

/-- The outer callback of `display_search_results`: `cart.items.forEach(...)`. -/
def appendCartRows (table : String) (cart : JsVal) : Except JsError String := do
  let items ← cart.get "items"
  items.forEachM appendSearchRow table

/-- The markup `display_search_results(res)` builds (source lines 661-683). -/
def searchResultsTable (res : JsVal) : Except JsError String := do
  let table := tableHead
  let table ← res.forEachM appendCartRows table
  pure (table ++ tableFoot)

/-- The function `display_search_results(res)` (source lines 660-692): build the
table and put it into `#search_results`. -/
def display_search_results (res : JsVal) (p : Page) : Outcome :=
  match searchResultsTable res with
  | .error e => ⟨p, some e⟩
  | .ok table => ⟨{ p with results := table }, none⟩

/-- The statements `let table = formatSearchResults(res);
$("#search_results").html(table); addItemClickHandlers(); flash_message(msg)`
shared by the list, retrieve and search callbacks. -/
def showTable (res : JsVal) (msg : String) (p : Page) : Outcome :=
  match formatSearchResults res with
  | .error e => ⟨p, some e⟩
  | .ok table => ⟨flash_message (.str msg) { p with results := table }, none⟩

/-- The failure statement `flash_message(res.responseJSON?.error || fallback)`. -/
def flashErrorOpt (responseJSON : JsVal) (fallback : String) (p : Page) : Outcome :=
  match responseJSON.getOpt "error" with
  | .error e => ⟨p, some e⟩
  | .ok v => flashLast (v.or (.str fallback)) p

/-- The failure statement `flash_message(res.responseJSON.error || fallback)`,
without optional chaining. -/
def flashError (responseJSON : JsVal) (fallback : String) (p : Page) : Outcome :=
  match responseJSON.get "error" with
  | .error e => ⟨p, some e⟩
  | .ok v => flashLast (v.or (.str fallback)) p

/-! ## Handlers

For each button `X` the click handler is `X_click`; the callbacks registered
with `ajax.done` and `ajax.fail` are `X_done` and `X_fail`. A `done` callback
receives the parsed body, a `fail` callback the `responseJSON` property of the
response object, which is `undefined` when the body is not JSON. -/

/-- The function `check_health()` (source lines 45-51): the request. -/
def check_health (p : Page) : Page :=
  p.ajax "GET" "/health"

/-- The success callback of `check_health`. -/
def check_health_done (p : Page) : Page :=
  { p with health := "<span class=\"text-success\">✓ API Online</span>" }

/-- The failure callback of `check_health`. -/
def check_health_fail (p : Page) : Page :=
  { p with health := "<span class=\"text-danger\">✗ API Offline</span>" }

/-- Click on `#list-btn` (source lines 71-79). -/
def list_click (p : Page) : Page :=
  let p := p.emptyFlash
  p.ajax "GET" "/api/shopcarts"

/-- Success callback of `#list-btn` (source lines 81-90). -/
def list_done (res : JsVal) (p : Page) : Outcome :=
  showTable res "List results found!" p

/-- Failure callback of `#list-btn` (source lines 92-94). -/
def list_fail (responseJSON : JsVal) (p : Page) : Outcome :=
  flashErrorOpt responseJSON "Server error!" p

/-- Click on `#create-btn` (source lines 102-123). -/
def create_click (p : Page) : Page :=
  let user_id := p.form.user_id
  let p := p.emptyFlash
  p.ajax "POST" ("/api/shopcarts/" ++ user_id)

/-- The `item_id` the `#create-btn` click handler submits in the request data,
`parseInt(item_id)` (source line 110). -/
def create_data_item_id (f : Form) : JsNum :=
  parseInt f.item_id

/-- The callback `item => item.item_id == item_id` of `res.find`. -/
def sameItemId (item_id : String) (item : JsVal) : Except JsError Bool :=
  match item.get "item_id" with
  | .error e => .error e
  | .ok v => v.looseEqStr item_id

/-- Success callback of `#create-btn` (source lines 125-134); `item_id` is the
text the click handler read from the form. -/
def create_done (item_id : String) (res : JsVal) (p : Page) : Outcome :=
  let flash := fun (p : Page) =>
    Outcome.done (flash_message (.str "Item successfully added to cart!") p)
  match res.get "length" with
  | .error e => ⟨p, some e⟩
  | .ok len =>
    match len.gtZero with
    | .error e => ⟨p, some e⟩
    | .ok false => flash p
    | .ok true =>
      match res.find (sameItemId item_id) with
      | .error e => ⟨p, some e⟩
      | .ok added_item =>
        if added_item.truthy then (update_form_data added_item p).andThen flash
        else flash p

/-- Click on `#create_item-btn` (source lines 141-166). -/
def create_item_click (p : Page) : Page :=
  let user_id := p.form.user_id
  let p := p.emptyFlash
  p.ajax "POST" ("/api/shopcarts/" ++ user_id ++ "/items")

/-- Success callback of `#create_item-btn` (source lines 168-173). -/
def create_item_done (res : JsVal) (p : Page) : Outcome :=
  let p := flash_message (.str "Product added from items!") p
  match res.get "length" with
  | .error e => ⟨p, some e⟩
  | .ok len =>
    match len.gtZero with
    | .error e => ⟨p, some e⟩
    | .ok false => .done p
    | .ok true =>
      match res.first with
      | .error e => ⟨p, some e⟩
      | .ok item => update_form_data item p

/-- Failure callback of `#create_item-btn` (source lines 175-177). -/
def create_item_fail (responseJSON : JsVal) (p : Page) : Outcome :=
  flashErrorOpt responseJSON "Server error!" p

/-- Failure callback of `#create-btn` (source lines 136-138). -/
def create_fail (responseJSON : JsVal) (p : Page) : Outcome :=
  flashError responseJSON "Server error!" p

/-- Click on `#update-btn` (source lines 185-201). -/
def update_click (p : Page) : Page :=
  let user_id := p.form.user_id
  let item_id := p.form.item_id
  let p := p.emptyFlash
  p.ajax "PUT" ("/api/shopcarts/" ++ user_id ++ "/items/" ++ item_id)

/-- Success callback of `#update-btn` (source lines 203-212). -/
def update_done (res : JsVal) (p : Page) : Outcome :=
  match res.get "message" with
  | .error e => ⟨p, some e⟩
  | .ok message =>
    if message.truthy then
      let p := clear_form_data p
      flashLast message p
    else
      (update_form_data res p).andThen fun p =>
      .done (flash_message (.str "Item updated successfully!") p)

/-- Failure callback of `#update-btn` (source lines 214-216). -/
def update_fail (responseJSON : JsVal) (p : Page) : Outcome :=
  flashError responseJSON "Server error!" p

/-- Click on `#delete_item-btn` (source lines 223-244). -/
def delete_item_click (p : Page) : Page :=
  let user_id := p.form.user_id
  let item_id := p.form.item_id
  if user_id = "" then flash_message (.str "User ID is required to delete an item.") p
  else if item_id = "" then flash_message (.str "Item ID is required to delete an item.") p
  else
    let p := p.emptyFlash
    p.ajax "DELETE" ("/api/shopcarts/" ++ user_id ++ "/items/" ++ item_id)

/-- Success callback of `#delete_item-btn` (source lines 246-249). -/
def delete_item_done (p : Page) : Outcome :=
  let p := clear_form_data p
  .done (flash_message (.str "Item has been deleted from the cart!") p)

/-- Failure callback of `#delete_item-btn` (source lines 251-253). -/
def delete_item_fail (responseJSON : JsVal) (p : Page) : Outcome :=
  flashErrorOpt responseJSON "Server error!" p

/-- Click on `#retrieve-btn` (source lines 260-274). -/
def retrieve_click (p : Page) : Page :=
  let user_id := p.form.user_id
  if user_id = "" then flash_message (.str "User ID is required to retrieve a shopcart") p
  else
    let p := p.emptyFlash
    p.ajax "GET" ("/shopcarts/" ++ user_id)

/-- Success callback of `#retrieve-btn` (source lines 276-285). -/
def retrieve_done (res : JsVal) (p : Page) : Outcome :=
  showTable res "Shopcart retrieved successfully!" p

/-- Failure callback of `#retrieve-btn` (source lines 287-290). -/
def retrieve_fail (responseJSON : JsVal) (p : Page) : Outcome :=
  let p := clear_form_data p
  flashError responseJSON "Shopcart not found for this user." p

/-- Click on `#retrieve_items-btn` (source lines 297-311). -/
def retrieve_items_click (p : Page) : Page :=
  let user_id := p.form.user_id
  if user_id = "" then flash_message (.str "User ID is required to retrieve items") p
  else
    let p := p.emptyFlash
    p.ajax "GET" ("/shopcarts/" ++ user_id ++ "/items")

/-- Success callback of `#retrieve_items-btn` (source lines 313-322). -/
def retrieve_items_done (res : JsVal) (p : Page) : Outcome :=
  showTable res "Items retrieved successfully!" p

/-- Failure callback of `#retrieve_items-btn` (source lines 324-327). -/
def retrieve_items_fail (responseJSON : JsVal) (p : Page) : Outcome :=
  let p := clear_form_data p
  flashError responseJSON "Failed to retrieve items" p

/-- Click on `#retrieve_item-btn` (source lines 334-354). -/
def retrieve_item_click (p : Page) : Page :=
  let user_id := p.form.user_id
  let item_id := p.form.item_id
  if user_id = "" then flash_message (.str "User ID is required to retrieve an item") p
  else if item_id = "" then flash_message (.str "Item ID is required to retrieve an item") p
  else
    let p := p.emptyFlash
    p.ajax "GET" ("/shopcarts/" ++ user_id ++ "/items/" ++ item_id)

/-- Success callback of `#retrieve_item-btn` (source lines 356-360). -/
def retrieve_item_done (res : JsVal) (p : Page) : Outcome :=
  (update_form_data res p).andThen fun p =>
  .done (flash_message (.str "Item retrieved successfully!") p)

/-- Failure callback of `#retrieve_item-btn` (source lines 362-365). -/
def retrieve_item_fail (responseJSON : JsVal) (p : Page) : Outcome :=
  let p := clear_form_data p
  flashError responseJSON "Item not found" p

/-- Click on `#delete-btn` (source lines 372-382). -/
def delete_click (p : Page) : Page :=
  let user_id := p.form.user_id
  let p := p.emptyFlash
  p.ajax "DELETE" ("/api/shopcarts/" ++ user_id)

/-- Success callback of `#delete-btn` (source lines 384-388). -/
def delete_done (p : Page) : Outcome :=
  let p := clear_form_data p
  let p := { p with results := "" }
  .done (flash_message (.str "Shopcart has been deleted!") p)

/-- Failure callback of `#delete-btn` (source lines 390-392). -/
def delete_fail (responseJSON : JsVal) (p : Page) : Outcome :=
  flashError responseJSON "Server error!" p

/-- Click on `#clear-btn` (source lines 399-403); the input
`#shopcart_shopcart_user_id` it also assigns is none of the tracked ones. -/
def clear_click (p : Page) : Page :=
  let p := clear_form_data p
  p.emptyFlash

/-- Click on `#search-btn` (source lines 409-505). -/
def search_click (p : Page) : Page :=
  let searchUrl := search_url p.form
  let p := p.emptyFlash
  p.ajax "GET" searchUrl

/-- Success callback of `#search-btn` (source lines 507-516). -/
def search_done (res : JsVal) (p : Page) : Outcome :=
  showTable res "Search results found!" p

/-- Failure callback of `#search-btn` (source lines 518-520). -/
def search_fail (responseJSON : JsVal) (p : Page) : Outcome :=
  flashError responseJSON "Server error!" p

/-- Click on `#search_user-btn` (source lines 523-620). -/
def search_user_click (p : Page) : Page :=
  let user_id := p.form.user_id
  if user_id = "" then flash_message (.str "User ID is required to search user cart.") p
  else
    let searchUrl := search_user_url p.form
    let p := p.emptyFlash
    p.ajax "GET" searchUrl

/-- Success callback of `#search_user-btn` (source lines 622-624). -/
def search_user_done (res : JsVal) (p : Page) : Outcome :=
  display_search_results res p

/-- Failure callback of `#search_user-btn` (source lines 626-628). -/
def search_user_fail (responseJSON : JsVal) (p : Page) : Outcome :=
  flashError responseJSON "Server error!" p

/-- Click on `#checkout-btn` (source lines 635-645). -/
def checkout_click (p : Page) : Page :=
  let user_id := p.form.user_id
  let p := p.emptyFlash
  p.ajax "POST" ("/api/shopcarts/" ++ user_id ++ "/checkout")

/-- The call `v.toFixed(2)`: only a Number has the method. -/
def JsVal.toFixed2 (v : JsVal) : Except JsError String :=
  match v with
  | .num x => .ok (Shopcarts.toFixed2 x)
  | _ => .error .typeError

/-- The template `${res.message} Total: $${res.total_price.toFixed(2)}`. -/
def checkoutText (res : JsVal) : Except JsError String := do
  let message ← fieldText res "message"
  let total_price ← res.get "total_price"
  let fixed ← total_price.toFixed2
  pure (message ++ " Total: $" ++ fixed)

/-- Success callback of `#checkout-btn` (source lines 647-649). -/
def checkout_done (res : JsVal) (p : Page) : Outcome :=
  match checkoutText res with
  | .error e => ⟨p, some e⟩
  | .ok text => .done (flash_message (.str text) p)

/-- Failure callback of `#checkout-btn` (source lines 651-653). -/
def checkout_fail (responseJSON : JsVal) (p : Page) : Outcome :=
  flashErrorOpt responseJSON "Server error!" p

/-- The request of a row click, for the `data-user-id` and `data-id` values of
the row (`get_item_details`, and the handler of `addItemClickHandlers`). -/
def item_row_click (userId itemId : JsVal) (p : Page) : Outcome :=
  match userId.toStr, itemId.toStr with
  | .ok u, .ok i => .done (p.ajax "GET" ("/shopcarts/" ++ u ++ "/items/" ++ i))
  | _, _ => ⟨p, some .typeError⟩

/-- Success callback of a row click (source lines 703-707 and 779-782). -/
def item_details_done (res : JsVal) (p : Page) : Outcome :=
  (update_form_data res p).andThen fun p =>
  .done (flash_message (.str "Item details retrieved!") p)

/-- Failure callback of `get_item_details` (source lines 708-710). -/
def get_item_details_fail (responseJSON : JsVal) (p : Page) : Outcome :=
  flashErrorOpt responseJSON "Server error!" p

/-- Failure callback of the handler bound by `addItemClickHandlers` (source
lines 783-785). -/
def item_click_fail (responseJSON : JsVal) (p : Page) : Outcome :=
  flashErrorOpt responseJSON "Error retrieving item details" p

/-! ## Response shapes

The bodies the server sends, as the interface section of the specification
lists them: items, shopcarts, sequences of them, a removal message, a checkout
receipt. A field holds a JSON scalar or is absent. -/

/-- A JSON scalar, or `undefined` for a property that is absent. -/
inductive Prim where
  | undefined
  | null
  | bool (b : Bool)
  | num (x : JsNum)
  | str (s : String)
  deriving DecidableEq, Repr

/-- The scalar as a value. -/
def Prim.toJs : Prim → JsVal
  | .undefined => .undefined
  | .null => .null
  | .bool b => .bool b
  | .num x => .num x
  | .str s => .str s

/-- The text `ToString` gives a scalar. -/
def Prim.text : Prim → String
  | .undefined => "undefined"
  | .null => "null"
  | .bool b => if b then "true" else "false"
  | .num x => numberToString x
  | .str s => s

/-- The text an input shows for a scalar: nothing for an absent or `null`
property, its `ToString` text otherwise. -/
def Prim.inputText : Prim → String
  | .undefined => ""
  | .null => ""
  | p => p.text

/-- Loose equality of a scalar with form text, as `==` computes it. -/
def Prim.looseEq (v : Prim) (s : String) : Bool :=
  match v with
  | .undefined => false
  | .null => false
  | .bool b => numEq (if b then JsNum.ofNat 1 else .fin false 0 0) (stringToNumber s)
  | .num x => numEq x (stringToNumber s)
  | .str t => decide (t = s)

/-- A cart line `{ user_id, item_id, description, price, quantity, created_at }`. -/
structure Item where
  user_id : Prim
  item_id : Prim
  description : Prim
  price : Prim
  quantity : Prim
  created_at : Prim
  deriving DecidableEq, Repr

/-- The properties of a cart line. -/
def Item.fields (i : Item) : List (String × JsVal) :=
  [("user_id", i.user_id.toJs), ("item_id", i.item_id.toJs),
    ("description", i.description.toJs), ("price", i.price.toJs),
    ("quantity", i.quantity.toJs), ("created_at", i.created_at.toJs)]

/-- The cart line as a parsed JSON object. -/
def Item.toJs (i : Item) : JsVal :=
  .obj i.fields

/-- A shopcart `{ user_id, items: [Item] }`. -/
structure Cart where
  user_id : Prim
  items : List Item
  deriving DecidableEq, Repr

/-- The shopcart as a parsed JSON object. -/
def Cart.toJs (c : Cart) : JsVal :=
  .obj [("user_id", c.user_id.toJs), ("items", .arr (c.items.map Item.toJs))]

/-- One element of a listing: an Item or a Cart. -/
inductive Entry where
  | item (i : Item)
  | cart (c : Cart)
  deriving DecidableEq, Repr

/-- The element as a parsed JSON object. -/
def Entry.toJs : Entry → JsVal
  | .item i => i.toJs
  | .cart c => c.toJs

/-- The leaf Items of an element, in source order. -/
def Entry.leaves : Entry → List Item
  | .item i => [i]
  | .cart c => c.items

/-- A body the table renderer supports: a single Item or Cart, or an ordered
sequence of Items and Carts. -/
inductive TableData where
  | single (e : Entry)
  | many (es : List Entry)
  deriving DecidableEq, Repr

/-- The body as a parsed JSON value. -/
def TableData.toJs : TableData → JsVal
  | .single e => e.toJs
  | .many es => .arr (es.map Entry.toJs)

/-- The leaf Items of a body, in source order. -/
def TableData.leaves : TableData → List Item
  | .single e => e.leaves
  | .many es => es.flatMap Entry.leaves

/-- The row `formatItemRow` prints for a cart line. -/
def itemRow (i : Item) : String :=
  rowMarkup "            " "        " i.item_id.text i.user_id.text i.description.text
    i.quantity.text i.price.text

/-- The form after `update_form_data` ran on a cart line: each of the six item
inputs holds the text of its property without line breaks. -/
def Form.withItem (f : Form) (i : Item) : Form :=
  { f with
    user_id := stripLineBreaks i.user_id.inputText
    item_id := stripLineBreaks i.item_id.inputText
    description := stripLineBreaks i.description.inputText
    price := stripLineBreaks i.price.inputText
    quantity := stripLineBreaks i.quantity.inputText
    created_at := stripLineBreaks i.created_at.inputText }

/-- The cart line a JSON object denotes: for each property its scalar. -/
def HasItemFields (fields : List (String × JsVal)) (i : Item) : Prop :=
  (fields.lookup "user_id").getD .undefined = i.user_id.toJs
    ∧ (fields.lookup "item_id").getD .undefined = i.item_id.toJs
    ∧ (fields.lookup "description").getD .undefined = i.description.toJs
    ∧ (fields.lookup "price").getD .undefined = i.price.toJs
    ∧ (fields.lookup "quantity").getD .undefined = i.quantity.toJs
    ∧ (fields.lookup "created_at").getD .undefined = i.created_at.toJs

/-! ## Sample states -/

/-- A form with every input empty. -/
def emptyForm : Form :=
  { user_id := "", item_id := "", description := "", price := "", quantity := "",
    stock := "", purchase_limit := "", created_at := "", price_range := "",
    quantity_range := "", min_price := "", max_price := "", created_at_range := "" }

/-- A freshly loaded page showing the given form. -/
def pageWith (f : Form) : Page :=
  { form := f, flash := [], results := "", health := "", requests := [] }

/-- A page that shows an earlier message and an earlier table. -/
def usedPage : Page :=
  { form := plainForm, flash := [.str "List results found!"],
    results := tableHead ++ tableFoot, health := "", requests := [] }

/-- The cart line of the specification scenario: user 42, item 7, a book at
9.99, quantity 2. -/
def bookItem : Item :=
  { user_id := .num (JsNum.ofNat 42), item_id := .num (JsNum.ofNat 7),
    description := .str "Book", price := .num (JsNum.ofDecimal false 999 (-2)),
    quantity := .num (JsNum.ofNat 2), created_at := .str "2025-03-01T10:00:00" }

/-- A second cart line of user 42. -/
def penItem : Item :=
  { user_id := .num (JsNum.ofNat 42), item_id := .num (JsNum.ofNat 8),
    description := .str "Pen", price := .num (JsNum.ofDecimal false 15 (-1)),
    quantity := .num (JsNum.ofNat 10), created_at := .str "2025-03-02T09:30:00" }

/-- What a click that fails its pre-check does to the page: no request is
issued, the status area holds exactly one message, the form and the results
table are as before. -/
def ValidationOnly (before after : Page) : Prop :=
  after.requests = before.requests
    ∧ (∃ msg : String, after.flash = [.str msg])
    ∧ after.form = before.form
    ∧ after.results = before.results

/-- A listing with a full cart, an empty cart and a loose item. -/
def sampleListing : TableData :=
  .many [.cart ⟨.num (JsNum.ofNat 42), [bookItem, penItem]⟩, .cart ⟨.num (JsNum.ofNat 43), []⟩,
    .item penItem]

/-- A body of Search by user: the one cart of user 42, holding the book. -/
def sampleCarts : JsVal :=
  .arr [Cart.toJs ⟨.num (JsNum.ofNat 42), [bookItem]⟩]

/-- The number of hundredths nearest to the magnitude `m * 2 ^ e`, a tie going
to the larger. -/
def hundredths (m : Nat) (e : Int) : Nat :=
  Frac.roundHalfUp (Frac.mul (JsNum.mag m e) ⟨100, 1⟩)

/-- Fixed notation with exactly two decimal places for `n` hundredths: an
optional minus sign, the integer part, a point and two digits. -/
def twoDecimals (neg : Bool) (n : Nat) : String :=
  (if neg then "-" else "")
    ++ (natDigits (n / 100) ++ "." ++ String.mk [Nat.digitChar (n / 10 % 10), Nat.digitChar (n % 10)])

/-- A checkout receipt `{ message, total_price }`. -/
def receipt (message : String) (total_price : JsNum) : JsVal :=
  .obj [("message", .str message), ("total_price", .num total_price)]

/-- The double nearest to `19.980000000000004`, the sum of two prices of 9.99. -/
def price1998 : JsNum := JsNum.ofDecimal false 19980000000000004 (-15)

/-- The double `1e21`. -/
def price1e21 : JsNum := JsNum.ofDecimal false 1 21

/-- A removal response whose message carries a tag. -/
def taggedMessage : JsVal :=
  .obj [("message", .str "Item <b>7</b> removed")]

/-- A removal response whose message carries a character reference. -/
def entityMessage : JsVal :=
  .obj [("message", .str "Tom &amp; Jerry removed")]

/-- A cart line whose description has two lines. -/
def twoLineItem : Item :=
  { bookItem with description := .str "Red\nBook" }

/-- A cart line of user 42 with item id 700. -/
def bulkItem : Item :=
  { bookItem with item_id := .num (JsNum.ofNat 700), description := .str "Pallet" }

/-- The form of the specification scenario with the item id typed as `7abc`. -/
def mistypedForm : Form :=
  { plainForm with item_id := "7abc" }

/-- The form of the specification scenario with the item id typed as `7e2`. -/
def exponentForm : Form :=
  { plainForm with item_id := "7e2" }

/-! ## The dispatch table

The actions of the request dispatcher with the method, the path and the
pre-check the specification lists for each, next to the handlers of the script
that implement them. -/

/-- The actions of the dispatch table. -/
inductive Action where
  | healthCheck
  | listAll
  | addCartItem
  | addCatalogItem
  | updateQuantity
  | deleteItem
  | retrieveCart
  | retrieveItems
  | retrieveOneItem
  | deleteCart
  | search
  | searchByUser
  | checkout
  deriving DecidableEq, Repr

/-- The HTTP method of an action's row. -/
def Action.method : Action → String
  | .healthCheck => "GET"
  | .listAll => "GET"
  | .addCartItem => "POST"
  | .addCatalogItem => "POST"
  | .updateQuantity => "PUT"
  | .deleteItem => "DELETE"
  | .retrieveCart => "GET"
  | .retrieveItems => "GET"
  | .retrieveOneItem => "GET"
  | .deleteCart => "DELETE"
  | .search => "GET"
  | .searchByUser => "GET"
  | .checkout => "POST"

/-- The path of an action's row, with `{user_id}` and `{item_id}` taken from
the form. -/
def Action.path (f : Form) : Action → String
  | .healthCheck => "/health"
  | .listAll => "/api/shopcarts"
  | .addCartItem => "/api/shopcarts/" ++ f.user_id
  | .addCatalogItem => "/api/shopcarts/" ++ f.user_id ++ "/items"
  | .updateQuantity => "/api/shopcarts/" ++ f.user_id ++ "/items/" ++ f.item_id
  | .deleteItem => "/api/shopcarts/" ++ f.user_id ++ "/items/" ++ f.item_id
  | .retrieveCart => "/shopcarts/" ++ f.user_id
  | .retrieveItems => "/shopcarts/" ++ f.user_id ++ "/items"
  | .retrieveOneItem => "/shopcarts/" ++ f.user_id ++ "/items/" ++ f.item_id
  | .deleteCart => "/api/shopcarts/" ++ f.user_id
  | .search => "/api/shopcarts"
  | .searchByUser => "/api/shopcarts/" ++ f.user_id
  | .checkout => "/api/shopcarts/" ++ f.user_id ++ "/checkout"

/-- The filter part `?<filter>` of the two search rows: the filters that are
set, empty for every other action. -/
def Action.filters (f : Form) : Action → List (String × String)
  | .search => activeFilters (searchFilters f)
  | .searchByUser => activeFilters (searchUserFilters f)
  | _ => []

/-- The URL of an action: its path, followed by `?` and the joined filters when
there are any. -/
def Action.url (f : Form) (a : Action) : String :=
  if a.filters f = [] then a.path f
  else a.path f ++ "?" ++ String.intercalate "&" (renderPairs id (a.filters f))

/-- The pre-check of an action's row: the identifiers that must not be empty. -/
def Action.preCheck (f : Form) : Action → Bool
  | .deleteItem => decide (f.user_id ≠ "") && decide (f.item_id ≠ "")
  | .retrieveOneItem => decide (f.user_id ≠ "") && decide (f.item_id ≠ "")
  | .retrieveCart => decide (f.user_id ≠ "")
  | .retrieveItems => decide (f.user_id ≠ "")
  | .searchByUser => decide (f.user_id ≠ "")
  | _ => true

/-- The handler that starts an action: the click handler of its button, and
`check_health` for the health check. -/
def Action.click : Action → Page → Page
  | .healthCheck => check_health
  | .listAll => list_click
  | .addCartItem => create_click
  | .addCatalogItem => create_item_click
  | .updateQuantity => update_click
  | .deleteItem => delete_item_click
  | .retrieveCart => retrieve_click
  | .retrieveItems => retrieve_items_click
  | .retrieveOneItem => retrieve_item_click
  | .deleteCart => delete_click
  | .search => search_click
  | .searchByUser => search_user_click
  | .checkout => checkout_click

/-- The failure callback of an action. -/
def Action.fail : Action → JsVal → Page → Outcome
  | .healthCheck => fun _ p => .done (check_health_fail p)
  | .listAll => list_fail
  | .addCartItem => create_fail
  | .addCatalogItem => create_item_fail
  | .updateQuantity => update_fail
  | .deleteItem => delete_item_fail
  | .retrieveCart => retrieve_fail
  | .retrieveItems => retrieve_items_fail
  | .retrieveOneItem => retrieve_item_fail
  | .deleteCart => delete_fail
  | .search => search_fail
  | .searchByUser => search_user_fail
  | .checkout => checkout_fail

/-- The actions whose row says that a failure clears the form. -/
def Action.clearsFormOnFailure : Action → Bool
  | .retrieveCart => true
  | .retrieveItems => true
  | .retrieveOneItem => true
  | _ => false

/-! ## Rows as data -/

/-- What a table row carries: the `id`, `data-id` and `data-user-id` attributes
of its `tr` element and the texts of its five cells, in column order (user id,
item id, description, quantity, price). -/
structure Row where
  id : String
  dataId : String
  dataUserId : String
  userCell : String
  itemCell : String
  descriptionCell : String
  quantityCell : String
  priceCell : String
  deriving DecidableEq, Repr

/-- The markup of a row: the `tr` element with its attributes and its five
`td` cells, every cell on a line of its own behind `cellIndent` and the closing
tag behind `closeIndent`. -/
def Row.markup (cellIndent closeIndent : String) (r : Row) : String :=
  "<tr id=\"" ++ r.id ++ "\" class=\"item-row\" data-id=\"" ++ r.dataId
    ++ "\" data-user-id=\"" ++ r.dataUserId ++ "\">\n"
    ++ cellIndent ++ "<td>" ++ r.userCell ++ "</td>\n"
    ++ cellIndent ++ "<td>" ++ r.itemCell ++ "</td>\n"
    ++ cellIndent ++ "<td>" ++ r.descriptionCell ++ "</td>\n"
    ++ cellIndent ++ "<td>" ++ r.quantityCell ++ "</td>\n"
    ++ cellIndent ++ "<td>" ++ r.priceCell ++ "</td>\n"
    ++ closeIndent ++ "</tr>"

/-- The row of a cart line. -/
def Item.row (i : Item) : Row :=
  { id := "item_" ++ i.item_id.text
    dataId := i.item_id.text
    dataUserId := i.user_id.text
    userCell := i.user_id.text
    itemCell := i.item_id.text
    descriptionCell := i.description.text
    quantityCell := i.quantity.text
    priceCell := i.price.text }

/-- The rows of a sequence of carts: one for each item of each cart, in source
order. -/
def cartRows (carts : List Cart) : List Row :=
  (carts.flatMap Cart.items).map Item.row

/-- The body that is a sequence of carts. -/
def cartsBody (carts : List Cart) : JsVal :=
  .arr (carts.map Cart.toJs)

/-! ## Reading a query string -/

/-- The segments of a text between its `&` separators. -/
def splitAmp : List Char → List (List Char)
  | [] => [[]]
  | c :: cs =>
    if c = '&' then [] :: splitAmp cs
    else
      match splitAmp cs with
      | [] => [[c]]
      | seg :: segs => (c :: seg) :: segs

/-- The keys of a query string as a server reads it: for each `&`-separated
segment the text before its first `=`; the empty query string has none. -/
def queryKeys (q : String) : List String :=
  if q = "" then []
  else (splitAmp q.data).map (fun seg => String.mk (seg.takeWhile (fun c => c ≠ '=')))

/-- Whether the eight filters of the per-user search are all empty. -/
def userFiltersEmpty (f : Form) : Bool :=
  decide (f.item_id = "") && decide (f.price = "") && decide (f.quantity = "")
    && decide (f.price_range = "") && decide (f.quantity_range = "")
    && decide (f.min_price = "") && decide (f.max_price = "")
    && decide (f.created_at_range = "")

/-- Whether the nine filters of the global search are all empty. -/
def allFiltersEmpty (f : Form) : Bool :=
  decide (f.user_id = "") && userFiltersEmpty f

/-- A form with user 42 and an item id that carries a second pair. -/
def injectedForm : Form :=
  { emptyForm with user_id := "42", item_id := "1&user_id=7" }

/-- A form whose only input is a user id with a question mark. -/
def questionForm : Form :=
  { emptyForm with user_id := "4?2" }

/-- A form whose only input is the user id 42. -/
def userOnlyForm : Form :=
  { emptyForm with user_id := "42" }

/-! # Theorems -/

set_option maxRecDepth 10000

/-! ## Query strings -/

theorem intercalate_go_length (sep : String) (as : List String) (acc : String) :
    acc.length ≤ (String.intercalate.go acc sep as).length := by
  induction as generalizing acc with
  | nil => simp [String.intercalate.go]
  | cons b bs ih =>
    simp only [String.intercalate.go]
    refine le_trans ?_ (ih _)
    simp [String.length_append]
    omega

theorem intercalate_go_append (sep : String) (as : List String) (acc x : String) :
    String.intercalate.go acc sep (as ++ [x]) = String.intercalate.go acc sep as ++ sep ++ x := by
  induction as generalizing acc with
  | nil => simp [String.intercalate.go]
  | cons b bs ih =>
    rw [List.cons_append]
    simp only [String.intercalate.go]
    exact ih _

theorem intercalate_go_prefix (sep : String) (as : List String) (acc : String) :
    ∃ t : String, String.intercalate.go acc sep as = acc ++ t := by
  induction as generalizing acc with
  | nil => exact ⟨"", by simp [String.intercalate.go]⟩
  | cons b bs ih =>
    obtain ⟨t, ht⟩ := ih (acc ++ sep ++ b)
    refine ⟨sep ++ b ++ t, ?_⟩
    simp only [String.intercalate.go]
    rw [ht]
    simp only [String.append_assoc]

theorem intercalate_snoc (sep : String) (L : List String) (x : String) :
    String.intercalate sep (L ++ [x]) =
      if L = [] then x else String.intercalate sep L ++ sep ++ x := by
  cases L with
  | nil => simp [String.intercalate, String.intercalate.go]
  | cons a as => simp [String.intercalate, intercalate_go_append]

theorem intercalate_length_pos (sep : String) (L : List String)
    (h : ∀ x ∈ L, 0 < x.length) : 0 < (String.intercalate sep L).length ↔ L ≠ [] := by
  cases L with
  | nil => simp [String.intercalate]
  | cons a as =>
    simp only [String.intercalate, ne_eq, reduceCtorEq, not_false_eq_true, iff_true]
    exact lt_of_lt_of_le (h a (by simp)) (intercalate_go_length sep as a)

/-- One filter block extends the joined text by one rendered pair. -/
theorem addFilter_spec (L : List String) (hL : ∀ x ∈ L, 0 < x.length) (k v : String) :
    addFilter (String.intercalate "&" L) ("&" ++ k ++ "=") (k ++ "=") v =
      String.intercalate "&" (L ++ renderPairs id (activeFilters [(k, v)])) := by
  unfold addFilter
  by_cases hv : v = ""
  · simp [hv, activeFilters, renderPairs]
  · have hact : activeFilters [(k, v)] = [(k, v)] := by simp [activeFilters, hv]
    rw [hact]
    simp only [renderPairs, List.map, id, intercalate_snoc, hv, ne_eq, not_false_eq_true, if_true]
    by_cases hnil : L = []
    · subst hnil
      simp [String.intercalate, String.append_assoc]
    · have hpos := (intercalate_length_pos "&" L hL).2 hnil
      simp [hnil, hpos, String.append_assoc]

theorem renderPairs_pos (enc : String → String) (fs : List (String × String)) :
    ∀ x ∈ renderPairs enc fs, 0 < x.length := by
  intro x hx
  simp only [renderPairs, List.mem_map] at hx
  obtain ⟨kv, _, rfl⟩ := hx
  simp [String.length_append]
  have : ("=" : String).length = 1 := by decide
  omega

theorem applyFilters_spec (fs : List (String × String)) (L : List String)
    (hL : ∀ x ∈ L, 0 < x.length) :
    applyFilters (String.intercalate "&" L) fs =
      String.intercalate "&" (L ++ renderPairs id (activeFilters fs)) := by
  induction fs generalizing L with
  | nil => simp [applyFilters, activeFilters, renderPairs]
  | cons kv rest ih =>
    have hstep := addFilter_spec L hL kv.1 kv.2
    have hL2 : ∀ x ∈ L ++ renderPairs id (activeFilters [(kv.1, kv.2)]), 0 < x.length := by
      intro x hx
      rcases List.mem_append.1 hx with h | h
      · exact hL x h
      · exact renderPairs_pos _ _ x h
    have := ih _ hL2
    simp only [applyFilters, List.foldl_cons] at this ⊢
    rw [hstep, this]
    congr 1
    simp [activeFilters, renderPairs, List.filter_cons]
    split <;> simp

theorem search_user_queryString_eq (f : Form) :
    search_user_queryString f =
      String.intercalate "&" (renderPairs id (activeFilters (searchUserFilters f))) := by
  have h := applyFilters_spec (searchUserFilters f) [] (by simp)
  simp only [List.nil_append] at h
  rw [← h]
  rfl

theorem search_queryString_eq (f : Form) :
    search_queryString f =
      String.intercalate "&" (renderPairs id (activeFilters (searchFilters f))) := by
  have h := applyFilters_spec (searchFilters f) [] (by simp)
  simp only [List.nil_append] at h
  rw [← h]
  simp only [search_queryString, applyFilters, searchFilters, List.foldl_cons, List.foldl_nil]
  have h0 : addFilter (String.intercalate "&" []) ("&" ++ "user_id" ++ "=") ("user_id" ++ "=") f.user_id
      = if f.user_id ≠ "" then "" ++ ("user_id=" ++ f.user_id) else "" := by
    simp [addFilter, String.intercalate]
  rw [h0]
  rfl

/-- The first character of a joined text is the first character of its first piece. -/
theorem intercalate_head (sep : String) (L : List String) (c : Char)
    (h : ∀ x ∈ L, ∃ d, x.data.head? = some d ∧ d ≠ c) :
    (String.intercalate sep L).data.head? ≠ some c := by
  cases L with
  | nil => simp [String.intercalate]
  | cons a as =>
    obtain ⟨t, ht⟩ := intercalate_go_prefix sep as a
    obtain ⟨d, hd, hne⟩ := h a (by simp)
    simp only [String.intercalate, ht, String.data_append]
    cases hdata : a.data with
    | nil => simp [hdata] at hd
    | cons e es =>
      simp only [hdata, List.head?_cons, Option.some.injEq] at hd
      simp only [List.cons_append, List.head?_cons, ne_eq, Option.some.injEq]
      exact hd ▸ hne

/-- The last character of a joined text is the last character of its last piece. -/
theorem intercalate_getLast (sep : String) (L : List String) (c : Char)
    (h : ∀ x ∈ L, x.data ≠ [] ∧ x.data.getLast? ≠ some c) :
    (String.intercalate sep L).data.getLast? ≠ some c := by
  rcases List.eq_nil_or_concat L with hnil | ⟨L0, x, rfl⟩
  · subst hnil
    simp [String.intercalate]
  · obtain ⟨hx1, hx2⟩ := h x (by simp)
    have hlast : ∀ p : String, (p ++ x).data.getLast? = x.data.getLast? := by
      intro p
      rw [String.data_append, List.getLast?_append_of_ne_nil _ hx1]
    rw [List.concat_eq_append, intercalate_snoc]
    split
    · exact hx2
    · rw [hlast]
      exact hx2

theorem searchFilters_key_head (f : Form) :
    ∀ kv ∈ searchFilters f, ∃ d, kv.1.data.head? = some d ∧ d ≠ '&' := by
  intro kv hkv
  simp only [searchFilters, List.mem_cons, List.mem_singleton, List.not_mem_nil, or_false] at hkv
  rcases hkv with h | h | h | h | h | h | h | h | h <;> subst h
  · exact ⟨'u', rfl, by decide⟩
  · exact ⟨'i', rfl, by decide⟩
  · exact ⟨'p', rfl, by decide⟩
  · exact ⟨'q', rfl, by decide⟩
  · exact ⟨'p', rfl, by decide⟩
  · exact ⟨'q', rfl, by decide⟩
  · exact ⟨'m', rfl, by decide⟩
  · exact ⟨'m', rfl, by decide⟩
  · exact ⟨'c', rfl, by decide⟩

theorem string_data_ne_nil {v : String} (h : v ≠ "") : v.data ≠ [] := by
  intro hd
  exact h (String.ext (by simpa using hd))

theorem encodeChar_ne_nil (c : Char) : encodeChar c ≠ [] := by
  unfold encodeChar
  split
  · simp
  · unfold String.utf8EncodeChar
    simp only []
    split_ifs <;> simp [percentByte]

theorem encodeChar_length (c : Char) :
    1 ≤ (encodeChar c).length ∧ (uriUnreserved c = false → 3 ≤ (encodeChar c).length) := by
  unfold encodeChar
  by_cases h : uriUnreserved c = true
  · simp [h]
  · simp only [h, Bool.false_eq_true, if_false]
    have h3 : 3 ≤ ((String.utf8EncodeChar c).flatMap percentByte).length := by
      unfold String.utf8EncodeChar
      simp only []
      split_ifs <;> simp [percentByte]
    exact ⟨by omega, fun _ => h3⟩

theorem flatMap_encodeChar_length (cs : List Char) :
    cs.length ≤ (cs.flatMap encodeChar).length ∧
      ((∃ c ∈ cs, uriUnreserved c = false) → cs.length < (cs.flatMap encodeChar).length) := by
  induction cs with
  | nil => simp
  | cons c rest ih =>
    have hc := encodeChar_length c
    simp only [List.flatMap_cons, List.length_append, List.length_cons]
    refine ⟨by omega, ?_⟩
    rintro ⟨d, hd, hres⟩
    rcases List.mem_cons.1 hd with rfl | hd
    · have := hc.2 hres
      omega
    · have := ih.2 ⟨d, hd, hres⟩
      omega

/-- Text is a fixed point of `encodeURIComponent` exactly when every character
of it is unreserved. -/
theorem encodeURIComponent_eq_self_iff (v : String) :
    encodeURIComponent v = v ↔ ∀ c ∈ v.data, uriUnreserved c = true := by
  constructor
  · intro h c hc
    by_contra hres
    have hlt := (flatMap_encodeChar_length v.data).2 ⟨c, hc, by simpa using hres⟩
    have hlen : (encodeURIComponent v).data.length = v.data.length := by rw [h]
    simp only [encodeURIComponent] at hlen
    omega
  · intro h
    apply String.ext
    simp only [encodeURIComponent]
    have : ∀ cs : List Char, (∀ c ∈ cs, uriUnreserved c = true) → cs.flatMap encodeChar = cs := by
      intro cs
      induction cs with
      | nil => simp
      | cons c rest ih =>
        intro hall
        have hc : encodeChar c = [c] := by simp [encodeChar, hall c (by simp)]
        simp only [List.flatMap_cons, hc, List.singleton_append, List.cons.injEq, true_and]
        exact ih (fun d hd => hall d (List.mem_cons_of_mem _ hd))
    exact this _ h

theorem renderPairs_encode_eq (fs : List (String × String))
    (h : ∀ kv ∈ fs, ∀ c ∈ kv.2.data, uriUnreserved c = true) :
    renderPairs encodeURIComponent fs = renderPairs id fs := by
  simp only [renderPairs]
  apply List.map_congr_left
  intro kv hkv
  simp [(encodeURIComponent_eq_self_iff kv.2).2 (h kv hkv)]

/-- C1 (amended). The query string the global Search handler builds is the
texts `key=value` of exactly the non-empty filters, each once, in the declared
order (`user_id`, `item_id`, `price`, `quantity`, `price_range`,
`quantity_range`, `min-price`, `max-price`, `created_at_range`), joined by `&`;
it never starts with `&`, and it does not end with `&` when no field value
itself ends with `&`. -/
theorem search_queryString_shape (f : Form) :
    search_queryString f =
        String.intercalate "&" (renderPairs id (activeFilters (searchFilters f)))
      ∧ (search_queryString f).data.head? ≠ some '&'
      ∧ ((∀ kv ∈ searchFilters f, kv.2.data.getLast? ≠ some '&') →
          (search_queryString f).data.getLast? ≠ some '&') := by
  refine ⟨search_queryString_eq f, ?_, ?_⟩
  · rw [search_queryString_eq]
    apply intercalate_head
    intro x hx
    simp only [renderPairs, List.mem_map, id] at hx
    obtain ⟨kv, hkv, rfl⟩ := hx
    obtain ⟨d, hd, hne⟩ := searchFilters_key_head f kv (List.mem_of_mem_filter hkv)
    refine ⟨d, ?_, hne⟩
    cases hk : kv.1.data with
    | nil => simp [hk] at hd
    | cons e es =>
      simp only [hk, List.head?_cons] at hd
      simp [String.data_append, hk, hd]
  · intro hlast
    rw [search_queryString_eq]
    apply intercalate_getLast
    intro x hx
    simp only [renderPairs, List.mem_map, id] at hx
    obtain ⟨kv, hkv, rfl⟩ := hx
    have hmem := List.mem_of_mem_filter hkv
    have hv : kv.2 ≠ "" := by
      have := (List.mem_filter.1 hkv).2
      simpa using this
    have hv2 := string_data_ne_nil hv
    refine ⟨by simp [String.data_append, hv2], ?_⟩
    rw [String.data_append, List.getLast?_append_of_ne_nil _ hv2]
    exact hlast kv hmem

/-- Instance of `search_queryString_shape` on user 42, item 7, minimum price 5. -/
theorem search_queryString_shape_witness :
    (∀ kv ∈ searchFilters plainForm, kv.2.data.getLast? ≠ some '&')
      ∧ search_queryString plainForm = "user_id=42&item_id=7&min-price=5"
      ∧ (search_queryString plainForm).data.getLast? ≠ some '&' :=
  ⟨by decide, by decide, (search_queryString_shape plainForm).2.2 (by decide)⟩

/-- C1 as stated fails: a user id `1&` yields a query string ending in `&`. -/
theorem search_queryString_trailing_amp :
    search_queryString trailingAmpForm = "user_id=1&"
      ∧ (search_queryString trailingAmpForm).data.getLast? = some '&' := by
  decide

/-- C2 (amended). Both search handlers append every non-empty filter value
verbatim, as `key=value` without percent-encoding; the result coincides with the
percent-encoded query string when every filter value consists of characters
that `encodeURIComponent` leaves unchanged. -/
theorem search_queryStrings_verbatim (f : Form) :
    search_queryString f =
        String.intercalate "&" (renderPairs id (activeFilters (searchFilters f)))
      ∧ search_user_queryString f =
        String.intercalate "&" (renderPairs id (activeFilters (searchUserFilters f)))
      ∧ ((∀ kv ∈ searchFilters f, ∀ c ∈ kv.2.data, uriUnreserved c = true) →
          search_queryString f =
            String.intercalate "&"
              (renderPairs encodeURIComponent (activeFilters (searchFilters f)))
          ∧ search_user_queryString f =
            String.intercalate "&"
              (renderPairs encodeURIComponent (activeFilters (searchUserFilters f)))) := by
  refine ⟨search_queryString_eq f, search_user_queryString_eq f, ?_⟩
  intro h
  constructor
  · rw [search_queryString_eq, renderPairs_encode_eq]
    intro kv hkv
    exact h kv (List.mem_of_mem_filter hkv)
  · rw [search_user_queryString_eq, renderPairs_encode_eq]
    intro kv hkv
    exact h kv (List.mem_of_mem_tail (List.mem_of_mem_filter hkv))

/-- Instance of `search_queryStrings_verbatim` on user 42, item 7, minimum price 5. -/
theorem search_queryStrings_verbatim_witness :
    (∀ kv ∈ searchFilters plainForm, ∀ c ∈ kv.2.data, uriUnreserved c = true)
      ∧ search_queryString plainForm =
          String.intercalate "&"
            (renderPairs encodeURIComponent (activeFilters (searchFilters plainForm)))
      ∧ search_user_queryString plainForm = "item_id=7&min-price=5" :=
  ⟨by decide, ((search_queryStrings_verbatim plainForm).2.2 (by decide)).1, by decide⟩

/-- C2 as stated fails: with user id `a&b` and price range `1 2` both handlers
append the raw text, which differs from the percent-encoded one. -/
theorem search_queryString_not_encoded :
    search_queryString reservedForm = "user_id=a&b&item_id=7&price_range=1 2"
      ∧ String.intercalate "&"
          (renderPairs encodeURIComponent (activeFilters (searchFilters reservedForm)))
        = "user_id=a%26b&item_id=7&price_range=1%202"
      ∧ search_user_queryString reservedForm = "item_id=7&price_range=1 2"
      ∧ String.intercalate "&"
          (renderPairs encodeURIComponent (activeFilters (searchUserFilters reservedForm)))
        = "item_id=7&price_range=1%202"
      ∧ search_queryString reservedForm
        ≠ String.intercalate "&"
            (renderPairs encodeURIComponent (activeFilters (searchFilters reservedForm)))
      ∧ search_user_queryString reservedForm
        ≠ String.intercalate "&"
            (renderPairs encodeURIComponent (activeFilters (searchUserFilters reservedForm))) := by
  decide

/-! ## Form, validation, status area -/

/-- C7. `clear_form_data` sets each of the thirteen tracked inputs to the empty
text, and running it twice gives the same page as running it once. -/
theorem clear_form_data_clears (p : Page) :
    (clear_form_data p).form.user_id = ""
      ∧ (clear_form_data p).form.item_id = ""
      ∧ (clear_form_data p).form.description = ""
      ∧ (clear_form_data p).form.price = ""
      ∧ (clear_form_data p).form.quantity = ""
      ∧ (clear_form_data p).form.stock = ""
      ∧ (clear_form_data p).form.purchase_limit = ""
      ∧ (clear_form_data p).form.created_at = ""
      ∧ (clear_form_data p).form.price_range = ""
      ∧ (clear_form_data p).form.quantity_range = ""
      ∧ (clear_form_data p).form.min_price = ""
      ∧ (clear_form_data p).form.max_price = ""
      ∧ (clear_form_data p).form.created_at_range = ""
      ∧ clear_form_data (clear_form_data p) = clear_form_data p := by
  refine ⟨rfl, rfl, rfl, rfl, rfl, rfl, rfl, rfl, rfl, rfl, rfl, rfl, rfl, rfl⟩

/-- A non-empty text without markup is appended as one text node, and nothing
is raised. -/
theorem flashNodes_text (msg : String) (hne : msg ≠ "") (hm : hasMarkup msg.data = false) :
    flashNodes (.str msg) = .ok [.str msg] := by
  simp [flashNodes, flattenArgs, collectPending, pendingOf, JsVal.truthy, hne, JsVal.toStr,
    hm, appendLoop]

theorem flash_message_text (msg : String) (p : Page) (hne : msg ≠ "")
    (hm : hasMarkup msg.data = false) :
    flash_message (.str msg) p = { p with flash := [.str msg] } := by
  simp [flash_message, flashNodes_text msg hne hm, Page.emptyFlash]

theorem flash_message_validationOnly (msg : String) (p : Page) (hne : msg ≠ "")
    (hm : hasMarkup msg.data = false) :
    ValidationOnly p (flash_message (.str msg) p) := by
  rw [flash_message_text msg p hne hm]
  exact ⟨rfl, ⟨msg, rfl⟩, rfl, rfl⟩

/-- C4. When a required identifier is empty (`user_id` or `item_id` for Delete
item and Retrieve one item, `user_id` for Retrieve cart, Retrieve items and
Search by user) the click issues no request, leaves exactly one validation
message in the status area, and changes neither the form nor the results. -/
theorem missing_identifier_aborts (p : Page) :
    ((p.form.user_id = "" ∨ p.form.item_id = "") → ValidationOnly p (delete_item_click p))
      ∧ ((p.form.user_id = "" ∨ p.form.item_id = "") →
          ValidationOnly p (retrieve_item_click p))
      ∧ (p.form.user_id = "" → ValidationOnly p (retrieve_click p))
      ∧ (p.form.user_id = "" → ValidationOnly p (retrieve_items_click p))
      ∧ (p.form.user_id = "" → ValidationOnly p (search_user_click p)) := by
  refine ⟨?_, ?_, ?_, ?_, ?_⟩
  · intro h
    unfold delete_item_click
    by_cases hu : p.form.user_id = ""
    · simp only [hu, if_true]
      exact flash_message_validationOnly _ p (by decide) (by decide)
    · have hi : p.form.item_id = "" := h.resolve_left hu
      simp only [hu, hi, if_true, if_false]
      exact flash_message_validationOnly _ p (by decide) (by decide)
  · intro h
    unfold retrieve_item_click
    by_cases hu : p.form.user_id = ""
    · simp only [hu, if_true]
      exact flash_message_validationOnly _ p (by decide) (by decide)
    · have hi : p.form.item_id = "" := h.resolve_left hu
      simp only [hu, hi, if_true, if_false]
      exact flash_message_validationOnly _ p (by decide) (by decide)
  · intro hu
    simp only [retrieve_click, hu, if_true]
    exact flash_message_validationOnly _ p (by decide) (by decide)
  · intro hu
    simp only [retrieve_items_click, hu, if_true]
    exact flash_message_validationOnly _ p (by decide) (by decide)
  · intro hu
    simp only [search_user_click, hu, if_true]
    exact flash_message_validationOnly _ p (by decide) (by decide)

/-- Instance of `missing_identifier_aborts` on a fresh page with an empty form:
the request log stays empty after each of the five clicks. -/
theorem missing_identifier_aborts_witness :
    (pageWith emptyForm).form.user_id = ""
      ∧ (delete_item_click (pageWith emptyForm)).requests = []
      ∧ (retrieve_item_click (pageWith emptyForm)).requests = []
      ∧ (retrieve_click (pageWith emptyForm)).requests = []
      ∧ (retrieve_items_click (pageWith emptyForm)).requests = []
      ∧ (search_user_click (pageWith emptyForm)).requests = []
      ∧ (delete_item_click (pageWith emptyForm)).flash
          = [.str "User ID is required to delete an item."] :=
  ⟨rfl,
   ((missing_identifier_aborts (pageWith emptyForm)).1 (Or.inl rfl)).1,
   ((missing_identifier_aborts (pageWith emptyForm)).2.1 (Or.inl rfl)).1,
   ((missing_identifier_aborts (pageWith emptyForm)).2.2.1 rfl).1,
   ((missing_identifier_aborts (pageWith emptyForm)).2.2.2.1 rfl).1,
   ((missing_identifier_aborts (pageWith emptyForm)).2.2.2.2 rfl).1,
   rfl⟩

/-- C5 (code defect). With a failure response whose body is not JSON
(`responseJSON` is `undefined`) the failure callbacks of Add cart item, Update,
Retrieve cart, Retrieve items, Retrieve one item, Delete cart, Search and Search
by user raise a `TypeError` and write no message, while their siblings List,
Add catalog item, Delete item, Checkout and the row clicks write the fallback. -/
theorem fail_without_json_body (p : Page) :
    ((create_fail .undefined p).thrown = some .typeError
        ∧ (create_fail .undefined p).page.flash = p.flash)
      ∧ ((update_fail .undefined p).thrown = some .typeError
        ∧ (update_fail .undefined p).page.flash = p.flash)
      ∧ ((retrieve_fail .undefined p).thrown = some .typeError
        ∧ (retrieve_fail .undefined p).page.flash = p.flash)
      ∧ ((retrieve_items_fail .undefined p).thrown = some .typeError
        ∧ (retrieve_items_fail .undefined p).page.flash = p.flash)
      ∧ ((retrieve_item_fail .undefined p).thrown = some .typeError
        ∧ (retrieve_item_fail .undefined p).page.flash = p.flash)
      ∧ ((delete_fail .undefined p).thrown = some .typeError
        ∧ (delete_fail .undefined p).page.flash = p.flash)
      ∧ ((search_fail .undefined p).thrown = some .typeError
        ∧ (search_fail .undefined p).page.flash = p.flash)
      ∧ ((search_user_fail .undefined p).thrown = some .typeError
        ∧ (search_user_fail .undefined p).page.flash = p.flash)
      ∧ (list_fail .undefined p).page.flash = [.str "Server error!"]
      ∧ (create_item_fail .undefined p).page.flash = [.str "Server error!"]
      ∧ (delete_item_fail .undefined p).page.flash = [.str "Server error!"]
      ∧ (checkout_fail .undefined p).page.flash = [.str "Server error!"]
      ∧ (get_item_details_fail .undefined p).page.flash = [.str "Server error!"]
      ∧ (item_click_fail .undefined p).page.flash
          = [.str "Error retrieving item details"] := by
  refine ⟨⟨rfl, rfl⟩, ⟨rfl, rfl⟩, ⟨rfl, rfl⟩, ⟨rfl, rfl⟩, ⟨rfl, rfl⟩, ⟨rfl, rfl⟩, ⟨rfl, rfl⟩,
    ⟨rfl, rfl⟩, rfl, rfl, rfl, rfl, rfl, rfl⟩

/-- C6 (code defect). The success callback of Search by user never writes to
the status area: whatever the body, the area is as the click left it, and after
a search for user 42 that returns a cart it is empty although the request
succeeded and the table was rendered. A row click, for its part, issues its
request without emptying the status area. -/
theorem search_user_done_writes_no_message (res : JsVal) (p : Page) :
    (search_user_done res p).page.flash = p.flash
      ∧ (search_user_click usedPage).flash = []
      ∧ (search_user_done sampleCarts (search_user_click usedPage)).thrown = none
      ∧ (search_user_done sampleCarts (search_user_click usedPage)).page.results
          = tableHead
            ++ rowMarkup "                    " "                " "7" "42" "Book" "2" "9.99"
            ++ tableFoot
      ∧ (search_user_done sampleCarts (search_user_click usedPage)).page.flash = []
      ∧ (∀ userId itemId : JsVal, (item_row_click userId itemId p).page.flash = p.flash) := by
  refine ⟨?_, rfl, ?_, ?_, ?_, ?_⟩
  · unfold search_user_done display_search_results
    split <;> rfl
  · decide
  · decide
  · rfl
  · intro userId itemId
    unfold item_row_click
    split <;> rfl

/-! ## Table rendering -/

theorem string_join_append_left (l : List String) (acc : String) :
    List.foldl (fun r s => r ++ s) acc l = acc ++ String.join l := by
  induction l generalizing acc with
  | nil => simp [String.join]
  | cons a as ih =>
    simp only [String.join, List.foldl_cons, String.empty_append] at ih ⊢
    rw [ih (acc ++ a), ih a]
    simp [String.append_assoc]

theorem string_join_cons (a : String) (l : List String) :
    String.join (a :: l) = a ++ String.join l := by
  simp only [String.join, List.foldl_cons, String.empty_append]
  exact string_join_append_left l a

theorem string_join_append (l₁ l₂ : List String) :
    String.join (l₁ ++ l₂) = String.join l₁ ++ String.join l₂ := by
  induction l₁ with
  | nil => simp [String.join]
  | cons a as ih => simp [string_join_cons, ih, String.append_assoc]

theorem prim_toStr (v : Prim) : v.toJs.toStr = .ok v.text := by
  cases v <;> simp [Prim.toJs, JsVal.toStr, Prim.text]

theorem prim_valText (v : Prim) : v.toJs.valText = .ok v.inputText := by
  cases v <;> simp [Prim.toJs, JsVal.valText, JsVal.toStr, Prim.inputText, Prim.text]

theorem prim_looseEqStr (v : Prim) (s : String) :
    v.toJs.looseEqStr s = .ok (v.looseEq s) := by
  cases v <;> simp [Prim.toJs, JsVal.looseEqStr, Prim.looseEq]

/-- The row printed for a cart line is `itemRow`. -/
theorem formatItemRow_item (i : Item) : formatItemRow i.toJs = .ok (itemRow i) := by
  simp [formatItemRow, rowOf, fieldText, Item.toJs, Item.fields, JsVal.get, List.lookup, prim_toStr,
    itemRow, bind, Except.bind, pure, Except.pure]

theorem foldlM_appendItemRow (is : List Item) (table : String) :
    (is.map Item.toJs).foldlM appendItemRow table
      = .ok (table ++ String.join (is.map itemRow)) := by
  induction is generalizing table with
  | nil => simp [String.join, pure, Except.pure]
  | cons i rest ih =>
    simp only [List.map_cons, List.foldlM_cons, appendItemRow, formatItemRow_item, bind,
      Except.bind, pure, Except.pure]
    rw [ih, string_join_cons, String.append_assoc]

theorem item_get_items (i : Item) : i.toJs.get "items" = .ok .undefined := by
  simp [Item.toJs, Item.fields, JsVal.get, List.lookup]

theorem cart_get_items (c : Cart) :
    c.toJs.get "items" = .ok (.arr (c.items.map Item.toJs)) := by
  simp [Cart.toJs, JsVal.get, List.lookup]

theorem appendEntryRows_entry (e : Entry) (table : String) :
    appendEntryRows table e.toJs = .ok (table ++ String.join (e.leaves.map itemRow)) := by
  cases e with
  | item i =>
    simp only [appendEntryRows, Entry.toJs, item_get_items, bind, Except.bind, JsVal.truthy,
      Bool.false_eq_true, if_false, appendItemRow, formatItemRow_item, pure, Except.pure,
      Entry.leaves]
    simp [string_join_cons, String.join]
  | cart c =>
    simp only [appendEntryRows, Entry.toJs, cart_get_items, bind, Except.bind, JsVal.truthy,
      if_true, JsVal.forEachM, Entry.leaves]
    exact foldlM_appendItemRow c.items table

theorem foldlM_appendEntryRows (es : List Entry) (table : String) :
    (es.map Entry.toJs).foldlM appendEntryRows table
      = .ok (table ++ String.join ((es.flatMap Entry.leaves).map itemRow)) := by
  induction es generalizing table with
  | nil => simp [String.join, pure, Except.pure]
  | cons e rest ih =>
    simp only [List.map_cons, List.foldlM_cons, appendEntryRows_entry, bind, Except.bind]
    rw [ih]
    simp [List.flatMap_cons, string_join_append, String.append_assoc]

/-- C3. For a body of a supported shape (one Item, one Cart, a sequence of Items
and Carts) `formatSearchResults` returns the table head, then the row
`formatItemRow` prints for each leaf Item, in source order and each once, then
the table foot; so there are as many rows as leaf Items, and a Cart without
items contributes none. -/
theorem formatSearchResults_rows (d : TableData) :
    formatSearchResults d.toJs
        = .ok (tableHead ++ String.join (d.leaves.map itemRow) ++ tableFoot)
      ∧ d.leaves.map (fun i => formatItemRow i.toJs) = (d.leaves.map itemRow).map .ok
      ∧ (d.leaves.map itemRow).length = d.leaves.length
      ∧ ∀ u : Prim, (Entry.cart ⟨u, []⟩).leaves = [] := by
  refine ⟨?_, ?_, by simp, fun _ => rfl⟩
  · cases d with
    | single e =>
      cases e with
      | item i =>
        have hna : i.toJs.isArray = false := rfl
        simp only [formatSearchResults, TableData.toJs, Entry.toJs, TableData.leaves,
          Entry.leaves, hna, Bool.false_eq_true, if_false, item_get_items, bind, Except.bind,
          pure, Except.pure, JsVal.truthy, appendItemRow, formatItemRow_item]
        simp [string_join_cons, String.join]
      | cart c =>
        have hna : c.toJs.isArray = false := rfl
        simp only [formatSearchResults, TableData.toJs, Entry.toJs, TableData.leaves,
          Entry.leaves, hna, Bool.false_eq_true, if_false, cart_get_items, bind, Except.bind,
          pure, Except.pure, JsVal.truthy, if_true, JsVal.forEachM, foldlM_appendItemRow]
    | many es =>
      simp only [formatSearchResults, TableData.toJs, JsVal.isArray, if_true, JsVal.forEachM,
        TableData.leaves, bind, Except.bind, pure, Except.pure]
      rw [foldlM_appendEntryRows]
  · simp [formatItemRow_item]

/-! ## Form population -/

theorem setInput_prim (set : Form → String → Form) (fields : List (String × JsVal))
    (key : String) (v : Prim) (p : Page)
    (h : (fields.lookup key).getD .undefined = v.toJs) :
    setInput set (.obj fields) key p
      = ⟨{ p with form := set p.form (stripLineBreaks v.inputText) }, none⟩ := by
  simp only [setInput, JsVal.get, h, prim_valText]

/-- On an object whose six item properties are scalars `update_form_data`
copies each into its input and raises nothing. -/
theorem update_form_data_item (fields : List (String × JsVal)) (i : Item) (p : Page)
    (h : HasItemFields fields i) :
    update_form_data (.obj fields) p = ⟨{ p with form := p.form.withItem i }, none⟩ := by
  obtain ⟨h1, h2, h3, h4, h5, h6⟩ := h
  simp only [update_form_data, setInput_prim _ fields _ _ _ h1, setInput_prim _ fields _ _ _ h2,
    setInput_prim _ fields _ _ _ h3, setInput_prim _ fields _ _ _ h4,
    setInput_prim _ fields _ _ _ h5, setInput_prim _ fields _ _ _ h6, Outcome.andThen,
    Form.withItem]

theorem hasItemFields_fields (i : Item) : HasItemFields i.fields i := by
  simp [HasItemFields, Item.fields, List.lookup]

theorem update_form_data_toJs (i : Item) (p : Page) :
    update_form_data i.toJs p = ⟨{ p with form := p.form.withItem i }, none⟩ :=
  update_form_data_item _ i p (hasItemFields_fields i)

/-- A text without line breaks is assigned to an input unchanged. -/
theorem stripLineBreaks_plain (t : String)
    (h : ∀ c ∈ t.data, c ≠ Char.ofNat 10 ∧ c ≠ Char.ofNat 13) : stripLineBreaks t = t := by
  apply String.ext
  simp only [stripLineBreaks]
  rw [List.filter_eq_self]
  intro c hc
  simp [(h c hc).1, (h c hc).2]

/-- A text with markup is handed to the parser, and nothing is raised. -/
theorem flashNodes_markup (msg : String) (hm : hasMarkup msg.data = true) :
    flashNodes (.str msg) = .ok [.html msg] := by
  have hne : msg ≠ "" := by
    intro h
    subst h
    simp [hasMarkup] at hm
  simp [flashNodes, flattenArgs, collectPending, pendingOf, JsVal.truthy, hne, JsVal.toStr,
    hm, appendLoop]

/-- C8 (amended). On a successful Update-quantity response whose `message` is a
non-empty text without `<` and without a character reference, the form is
cleared and the status area holds one text node showing exactly that message; a
message with `<` or a character reference is handed to the HTML parser
instead. On a response without a message (the property is absent or not
truthy) whose item properties are scalars, the inputs `user_id`, `item_id`,
`description`, `price`, `quantity` and `created_at` hold the texts of the
response's properties without their line breaks, which are the texts
themselves when they have none, and the status area shows
`Item updated successfully!`. -/
theorem update_done_spec (fields : List (String × JsVal)) (p : Page) :
    (∀ m : String, fields.lookup "message" = some (.str m) → m ≠ "" →
        hasMarkup m.data = false →
        (update_done (.obj fields) p).thrown = none
          ∧ (update_done (.obj fields) p).page.form = emptyForm
          ∧ (update_done (.obj fields) p).page.flash = [.str m])
      ∧ (∀ m : String, fields.lookup "message" = some (.str m) → hasMarkup m.data = true →
          (update_done (.obj fields) p).thrown = none
            ∧ (update_done (.obj fields) p).page.form = emptyForm
            ∧ (update_done (.obj fields) p).page.flash = [.html m])
      ∧ (∀ i : Item, ((fields.lookup "message").getD .undefined).truthy = false →
          HasItemFields fields i →
          (update_done (.obj fields) p).thrown = none
            ∧ (update_done (.obj fields) p).page.form = p.form.withItem i
            ∧ (update_done (.obj fields) p).page.flash
                = [.str "Item updated successfully!"])
      ∧ (∀ t : String, (∀ c ∈ t.data, c ≠ Char.ofNat 10 ∧ c ≠ Char.ofNat 13) →
          stripLineBreaks t = t) := by
  refine ⟨?_, ?_, ?_, stripLineBreaks_plain⟩
  · intro m hm hne hmark
    have ht : (JsVal.str m).truthy = true := by simp [JsVal.truthy, hne]
    simp only [update_done, JsVal.get, hm, Option.getD_some, ht, if_true, flashLast,
      flash_raises, flash_message, flashNodes_text m hne hmark, Page.emptyFlash,
      List.nil_append]
    exact ⟨trivial, rfl, trivial⟩
  · intro m hm hmark
    have hne : m ≠ "" := by
      intro h
      subst h
      simp [hasMarkup] at hmark
    have ht : (JsVal.str m).truthy = true := by simp [JsVal.truthy, hne]
    simp only [update_done, JsVal.get, hm, Option.getD_some, ht, if_true, flashLast,
      flash_raises, flash_message, flashNodes_markup m hmark, Page.emptyFlash,
      List.nil_append]
    exact ⟨trivial, rfl, trivial⟩
  · intro i hf hi
    simp only [update_done, JsVal.get, hf, Bool.false_eq_true, if_false,
      update_form_data_item fields i p hi, Outcome.andThen]
    exact ⟨rfl, rfl, rfl⟩

/-- Instance of `update_done_spec`: the removal message of the specification
scenario, and an updated book line. -/
theorem update_done_spec_witness :
    ("Item removed" ≠ "" ∧ hasMarkup "Item removed".data = false)
      ∧ ((update_done (.obj [("message", .str "Item removed")]) usedPage).page.form = emptyForm
        ∧ (update_done (.obj [("message", .str "Item removed")]) usedPage).page.flash
            = [.str "Item removed"])
      ∧ (update_done bookItem.toJs usedPage).page.form.price = "9.99"
      ∧ (update_done bookItem.toJs usedPage).page.flash
          = [.str "Item updated successfully!"]
      ∧ stripLineBreaks "Book" = "Book" :=
  ⟨by decide,
   (((update_done_spec [("message", .str "Item removed")] usedPage).1 "Item removed" rfl
      (by decide) (by decide))).2,
   by
    have h := ((update_done_spec bookItem.fields usedPage).2.2.1 bookItem rfl
      (hasItemFields_fields bookItem)).2.1
    have h2 : (update_done bookItem.toJs usedPage).page.form.price
        = (usedPage.form.withItem bookItem).price := congrArg Form.price h
    rw [h2]
    decide,
   ((update_done_spec bookItem.fields usedPage).2.2.1 bookItem rfl
      (hasItemFields_fields bookItem)).2.2,
   (update_done_spec [] usedPage).2.2.2 "Book" (by decide)⟩

/-- C8 as stated fails: a message with a tag or with a character reference is
parsed as markup, so the status area does not show exactly that message, and a
description with a line break reaches its input without the break. -/
theorem update_done_not_verbatim :
    (update_done taggedMessage usedPage).page.flash = [.html "Item <b>7</b> removed"]
      ∧ (update_done taggedMessage usedPage).page.flash ≠ [.str "Item <b>7</b> removed"]
      ∧ (update_done entityMessage usedPage).page.flash = [.html "Tom &amp; Jerry removed"]
      ∧ (update_done entityMessage usedPage).page.flash ≠ [.str "Tom &amp; Jerry removed"]
      ∧ twoLineItem.description = .str "Red\nBook"
      ∧ (update_done twoLineItem.toJs usedPage).page.form.description = "RedBook"
      ∧ (update_done twoLineItem.toJs usedPage).page.form.description ≠ "Red\nBook" := by
  decide

/-! ## Checkout total -/

theorem toDigitsCore_fuel (b : Nat) (hb : 2 ≤ b) :
    ∀ (n fuel : Nat) (ds : List Char), n < fuel →
      Nat.toDigitsCore b fuel n ds = Nat.toDigits b n ++ ds := by
  intro n
  induction n using Nat.strong_induction_on with
  | _ n ih =>
    intro fuel ds hlt
    cases fuel with
    | zero => omega
    | succ f =>
      have hdiv : n / b < n ∨ n = 0 := by
        rcases Nat.eq_zero_or_pos n with h | h
        · exact Or.inr h
        · exact Or.inl (Nat.div_lt_self h hb)
      unfold Nat.toDigits
      simp only [Nat.toDigitsCore]
      by_cases h0 : n / b = 0
      · simp [h0]
      · simp only [h0, if_false]
        have hlt' : n / b < n := by
          rcases hdiv with h | h
          · exact h
          · subst h; simp at h0
        rw [ih (n / b) hlt' f _ (by omega), ih (n / b) hlt' n _ hlt']
        simp

/-- The decimal digits of `n` are those of `n / 10` followed by the last digit. -/
theorem toDigits_step (n : Nat) :
    Nat.toDigits 10 n =
      if n / 10 = 0 then [Nat.digitChar (n % 10)]
      else Nat.toDigits 10 (n / 10) ++ [Nat.digitChar (n % 10)] := by
  by_cases h0 : n / 10 = 0
  · simp only [h0, if_true]
    unfold Nat.toDigits
    simp [Nat.toDigitsCore, h0]
  · simp only [h0, if_false]
    have hlt : n / 10 < n := by
      apply Nat.div_lt_self _ (by decide)
      rcases Nat.eq_zero_or_pos n with h | h
      · subst h; simp at h0
      · exact h
    conv_lhs => unfold Nat.toDigits
    simp only [Nat.toDigitsCore, h0, if_false]
    exact toDigitsCore_fuel 10 (by decide) _ _ _ hlt

theorem toDigits_ne_nil (n : Nat) : Nat.toDigits 10 n ≠ [] := by
  rw [toDigits_step]
  split <;> simp

/-- Splitting the padded digits of `n` hundredths two places from the end gives
the digits of the integer part and the two decimals. -/
theorem fixed_split (n : Nat) :
    let L := Nat.toDigits 10 n
    let P := if L.length ≤ 2 then List.replicate (3 - L.length) '0' ++ L else L
    let k := if L.length ≤ 2 then 3 else L.length
    P.take (k - 2) = Nat.toDigits 10 (n / 100)
      ∧ P.drop (k - 2) = [Nat.digitChar (n / 10 % 10), Nat.digitChar (n % 10)] := by
  intro L P k
  have h100 : n / 10 / 10 = n / 100 := by rw [Nat.div_div_eq_div_mul]
  by_cases h1 : n / 10 = 0
  · have hL : L = [Nat.digitChar (n % 10)] := by
      show Nat.toDigits 10 n = _
      rw [toDigits_step, if_pos h1]
    have hz : n / 100 = 0 := by omega
    have hd : Nat.toDigits 10 (n / 100) = ['0'] := by rw [hz]; rfl
    simp only [P, k, hL, hd, h1]
    simp
    rfl
  · have hL1 : L = Nat.toDigits 10 (n / 10) ++ [Nat.digitChar (n % 10)] := by
      show Nat.toDigits 10 n = _
      rw [toDigits_step, if_neg h1]
    by_cases h2 : n / 100 = 0
    · have hL2 : Nat.toDigits 10 (n / 10) = [Nat.digitChar (n / 10 % 10)] := by
        rw [toDigits_step, if_pos (by omega)]
      have hd : Nat.toDigits 10 (n / 100) = ['0'] := by rw [h2]; rfl
      simp only [P, k, hL1, hL2, hd]
      simp
    · have hL2 : Nat.toDigits 10 (n / 10)
          = Nat.toDigits 10 (n / 100) ++ [Nat.digitChar (n / 10 % 10)] := by
        rw [toDigits_step, if_neg (by omega), h100]
      have hpos : 0 < (Nat.toDigits 10 (n / 100)).length :=
        List.length_pos.2 (toDigits_ne_nil _)
      have hlen : L.length = (Nat.toDigits 10 (n / 100)).length + 2 := by
        rw [hL1, hL2]; simp
      have hk : ¬ L.length ≤ 2 := by omega
      simp only [P, k, hk, if_false]
      rw [hlen, hL1, hL2]
      simp [List.append_assoc]

/-- Below `10 ^ 21` the method `toFixed(2)` prints the nearest hundredths in
fixed notation with two decimals. -/
theorem toFixed2_eq (neg : Bool) (m : Nat) (e : Int)
    (h : Frac.lt (JsNum.mag m e) (Frac.pow 10 21) = true) :
    toFixed2 (.fin neg m e) = twoDecimals (neg && decide (m ≠ 0)) (hundredths m e) := by
  have hge : Frac.le (Frac.pow 10 21) (JsNum.mag m e) = false := by
    simp only [Frac.lt, Frac.le, decide_eq_true_eq, decide_eq_false_iff_not, not_le] at h ⊢
    exact h
  have hs : (if (neg = true ∧ m ≠ 0) then "-" else "")
      = (if (neg && decide (m ≠ 0)) = true then "-" else "") := by
    cases neg <;> by_cases hm : m = 0 <;> simp [hm]
  have hzero : ∀ n : Nat, (if n = 0 then "0" else natDigits n) = natDigits n := by
    intro n
    split
    · next h0 => subst h0; rfl
    · rfl
  obtain ⟨h1, h2⟩ := fixed_split (hundredths m e)
  simp only [toFixed2, twoDecimals, hge, Bool.false_eq_true, if_false, hs, hzero]
  congr 1
  have hlen : (natDigits (Frac.roundHalfUp ((JsNum.mag m e).mul ⟨100, 1⟩))).length
      = (Nat.toDigits 10 (hundredths m e)).length := rfl
  simp only [hlen]
  apply String.ext
  by_cases hk : (Nat.toDigits 10 (hundredths m e)).length ≤ 2
  · simp only [hk, if_true] at h1 h2 ⊢
    simp only [String.data_append, zeros, natDigits, hundredths] at h1 h2 ⊢
    rw [h1, h2]
  · simp only [hk, if_false] at h1 h2 ⊢
    simp only [String.data_append, zeros, natDigits, hundredths] at h1 h2 ⊢
    rw [h1, h2]

theorem frac_pow_den_pos (base : Nat) (hb : 0 < base) (p : Int) : 0 < (Frac.pow base p).den := by
  unfold Frac.pow
  split
  · exact Nat.one_pos
  · exact pow_pos hb _

theorem roundHalfUp_bound (a : Frac) (hd : 0 < a.den) :
    -(1 / 2) < (Frac.roundHalfUp a : ℚ) - a.toRat
      ∧ (Frac.roundHalfUp a : ℚ) - a.toRat ≤ 1 / 2 := by
  have hd2 : 0 < 2 * a.den := by omega
  have hlo : Frac.roundHalfUp a * (2 * a.den) ≤ 2 * a.num + a.den :=
    Nat.div_mul_le_self _ _
  have hhi : 2 * a.num + a.den < 2 * a.den * (Frac.roundHalfUp a + 1) :=
    Nat.lt_mul_div_succ (2 * a.num + a.den) hd2
  have hdq : (0 : ℚ) < a.den := by exact_mod_cast hd
  have hlo' : (Frac.roundHalfUp a : ℚ) * (2 * a.den) ≤ 2 * a.num + a.den := by exact_mod_cast hlo
  have hhi' : (2 * a.num + a.den : ℚ) < 2 * a.den * ((Frac.roundHalfUp a : ℚ) + 1) := by
    exact_mod_cast hhi
  have hx : (a.num : ℚ) / a.den * a.den = a.num := div_mul_cancel₀ _ (ne_of_gt hdq)
  rw [Frac.toRat]
  generalize (a.num : ℚ) / a.den = x at hx ⊢
  generalize (Frac.roundHalfUp a : ℚ) = r at hlo' hhi' ⊢
  constructor
  · by_contra hcon
    push_neg at hcon
    nlinarith [mul_nonneg (show (0 : ℚ) ≤ -(1 / 2) - (r - x) by linarith) hdq.le]
  · by_contra hcon
    push_neg at hcon
    nlinarith [mul_pos (show (0 : ℚ) < (r - x) - 1 / 2 by linarith) hdq]

theorem mag_den_pos (m : Nat) (e : Int) : 0 < (JsNum.mag m e).den := by
  have := frac_pow_den_pos 2 (by decide) e
  simp only [JsNum.mag, Frac.mul]
  omega

theorem abs_toRat_fin (neg : Bool) (m : Nat) (e : Int) :
    |JsNum.toRat (.fin neg m e)| = (JsNum.mag m e).toRat := by
  have hnn : (0 : ℚ) ≤ (JsNum.mag m e).toRat := by
    unfold Frac.toRat
    positivity
  cases neg
  · simp [JsNum.toRat, abs_of_nonneg hnn]
  · simp [JsNum.toRat, abs_of_nonneg hnn]

theorem hundredths_bound (m : Nat) (e : Int) :
    -(1 / 200) < (hundredths m e : ℚ) / 100 - (JsNum.mag m e).toRat
      ∧ (hundredths m e : ℚ) / 100 - (JsNum.mag m e).toRat ≤ 1 / 200 := by
  have hd := mag_den_pos m e
  have hb := roundHalfUp_bound (Frac.mul (JsNum.mag m e) ⟨100, 1⟩)
    (by simp only [Frac.mul]; omega)
  have hdq : (0 : ℚ) < (JsNum.mag m e).den := by exact_mod_cast hd
  have hmul : (Frac.mul (JsNum.mag m e) ⟨100, 1⟩).toRat = (JsNum.mag m e).toRat * 100 := by
    simp only [Frac.toRat, Frac.mul]
    push_cast
    field_simp
  rw [hmul] at hb
  unfold hundredths
  constructor <;> linarith [hb.1, hb.2]

/-- The magnitude test of `toFixed` in terms of the exact value. -/
theorem below_1e21_iff (neg : Bool) (m : Nat) (e : Int) :
    Frac.lt (JsNum.mag m e) (Frac.pow 10 21) = true
      ↔ |JsNum.toRat (.fin neg m e)| < 10 ^ 21 := by
  have hd := mag_den_pos m e
  have hdq : (0 : ℚ) < (JsNum.mag m e).den := by exact_mod_cast hd
  rw [abs_toRat_fin, Frac.toRat, div_lt_iff₀ hdq]
  have hp : Frac.pow 10 21 = ⟨10 ^ 21, 1⟩ := rfl
  simp only [Frac.lt, hp, decide_eq_true_eq, Nat.mul_one]
  constructor
  · intro h
    exact_mod_cast h
  · intro h
    exact_mod_cast h

/-! ## Markup in a flashed text -/

theorem wordThenSemicolon_append_space (r : List Char) :
    ∀ (x : List Char) (seen : Bool),
      wordThenSemicolon seen (x ++ ' ' :: r) = wordThenSemicolon seen x := by
  intro x
  induction x with
  | nil =>
    intro seen
    simp [wordThenSemicolon, isWordChar, Char.isAlphanum, Char.isAlpha, Char.isUpper,
      Char.isLower, Char.isDigit]
  | cons c x ih =>
    intro seen
    have h := ih true
    rw [List.cons_append]
    unfold wordThenSemicolon
    rw [h]

theorem entityTail_append_space (r : List Char) (x : List Char) :
    entityTail (x ++ ' ' :: r) = entityTail x := by
  cases x with
  | nil =>
    simp [entityTail, wordThenSemicolon, isWordChar, Char.isAlphanum, Char.isAlpha,
      Char.isUpper, Char.isLower, Char.isDigit]
  | cons c x =>
    by_cases hc : c = '#'
    · subst hc
      simp only [List.cons_append, entityTail, wordThenSemicolon_append_space]
    · have h1 : entityTail (c :: (x ++ ' ' :: r)) = wordThenSemicolon false (c :: (x ++ ' ' :: r)) := by
        unfold entityTail
        split
        · next heq => exact absurd (List.cons.inj heq).1 hc
        · rfl
      have h2 : entityTail (c :: x) = wordThenSemicolon false (c :: x) := by
        unfold entityTail
        split
        · next heq => exact absurd (List.cons.inj heq).1 hc
        · rfl
      rw [List.cons_append, h1, h2, ← List.cons_append, wordThenSemicolon_append_space]

/-- A text without `<` and without `&` has no markup. -/
theorem hasMarkup_plain (r : List Char) (h : ∀ c ∈ r, c ≠ '<' ∧ c ≠ '&') :
    hasMarkup r = false := by
  induction r with
  | nil => rfl
  | cons c r ih =>
    have hc := h c (List.mem_cons_self _ _)
    have hr := ih (fun d hd => h d (List.mem_cons_of_mem _ hd))
    simp [hasMarkup, hc.1, hc.2, hr]

/-- Markup does not arise from a space and a plain text put after a text
without markup. -/
theorem hasMarkup_append_space (r : List Char) (hr : hasMarkup r = false) (m : List Char)
    (hm : hasMarkup m = false) : hasMarkup (m ++ ' ' :: r) = false := by
  induction m with
  | nil => simpa [hasMarkup] using hr
  | cons c m ih =>
    simp only [hasMarkup, Bool.or_eq_false_iff] at hm
    have h1 := entityTail_append_space r m
    have h2 := ih hm.2
    rw [List.cons_append]
    unfold hasMarkup
    rw [h1, h2, hm.1.1, hm.1.2]
    rfl

theorem toDigits_plain (n : Nat) : ∀ c ∈ Nat.toDigits 10 n, c ≠ '<' ∧ c ≠ '&' := by
  induction n using Nat.strong_induction_on with
  | _ n ih =>
    have hd : ∀ d, d < 10 → Nat.digitChar d ≠ '<' ∧ Nat.digitChar d ≠ '&' := by
      intro d hd
      interval_cases d <;> decide
    intro c hc
    rw [toDigits_step] at hc
    split at hc
    · simp only [List.mem_singleton] at hc
      rw [hc]
      exact hd _ (Nat.mod_lt _ (by decide))
    · next h0 =>
      rcases List.mem_append.1 hc with h | h
      · have hlt : n / 10 < n := by omega
        exact ih _ hlt c h
      · simp only [List.mem_singleton] at h
        rw [h]
        exact hd _ (Nat.mod_lt _ (by decide))

/-- The text of a receipt has markup only if its message has. -/
theorem receiptText_plain (message : String) (neg : Bool) (n : Nat)
    (hmk : hasMarkup message.data = false) :
    message ++ " Total: $" ++ twoDecimals neg n ≠ ""
      ∧ hasMarkup (message ++ " Total: $" ++ twoDecimals neg n).data = false := by
  have hd : ∀ d, d < 10 → Nat.digitChar d ≠ '<' ∧ Nat.digitChar d ≠ '&' := by
    intro d hd
    interval_cases d <;> decide
  have hdata : (message ++ " Total: $" ++ twoDecimals neg n).data
      = message.data ++ ' ' :: ("Total: $".data ++ (twoDecimals neg n).data) := by
    simp only [String.data_append]
    have : " Total: $".data = ' ' :: "Total: $".data := rfl
    simp [this]
  refine ⟨?_, ?_⟩
  · intro h
    have h2 := congrArg String.data h
    rw [hdata] at h2
    simp at h2
  · rw [hdata]
    apply hasMarkup_append_space _ _ _ hmk
    apply hasMarkup_plain
    intro c hc
    rcases List.mem_append.1 hc with h | h
    · have hall : ∀ d ∈ "Total: $".data, d ≠ '<' ∧ d ≠ '&' := by decide
      exact hall c h
    · simp only [twoDecimals, natDigits, String.data_append, List.mem_append] at h
      rcases h with h | (h | h) | h
      · cases neg
        · simp at h
        · simp only [if_true] at h
          have : c = '-' := by simpa using h
          rw [this]
          decide
      · exact toDigits_plain _ c h
      · have : c = '.' := by simpa using h
        rw [this]
        decide
      · simp only [List.mem_cons, List.mem_singleton] at h
        rcases h with h | h | h
        · rw [h]
          exact hd _ (Nat.mod_lt _ (by decide))
        · rw [h]
          exact hd _ (Nat.mod_lt _ (by decide))
        · simp at h

/-- C9 (amended). For a successful Checkout response `{ message, total_price }`
whose `message` is a text without `<` and without a character reference, and
whose `total_price` is a finite number of magnitude below `10 ^ 21`, the
status area holds exactly `message`, then ` Total: $`, then `total_price` in
fixed notation with exactly two decimal places: a minus sign for a negative
value, and the hundredths nearest to the magnitude, a tie going away from
zero. -/
theorem checkout_done_spec (fields : List (String × JsVal)) (message : String) (neg : Bool)
    (m : Nat) (e : Int) (p : Page)
    (hm : fields.lookup "message" = some (.str message))
    (hmk : hasMarkup message.data = false)
    (ht : fields.lookup "total_price" = some (.num (.fin neg m e)))
    (hlt : |JsNum.toRat (.fin neg m e)| < 10 ^ 21) :
    (checkout_done (.obj fields) p).thrown = none
      ∧ (checkout_done (.obj fields) p).page.flash
          = [.str (message ++ " Total: $"
              ++ twoDecimals (neg && decide (m ≠ 0)) (hundredths m e))]
      ∧ -(1 / 200) < (hundredths m e : ℚ) / 100 - abs (JsNum.toRat (.fin neg m e))
      ∧ (hundredths m e : ℚ) / 100 - abs (JsNum.toRat (.fin neg m e)) ≤ 1 / 200 := by
  have hlt' := (below_1e21_iff neg m e).2 hlt
  have htext : checkoutText (.obj fields)
      = .ok (message ++ " Total: $" ++ twoDecimals (neg && decide (m ≠ 0)) (hundredths m e)) := by
    simp only [checkoutText, fieldText, JsVal.get, hm, ht, Option.getD_some, JsVal.toStr,
      JsVal.toFixed2, toFixed2_eq neg m e hlt', bind, Except.bind, pure, Except.pure]
  have hplain := receiptText_plain message (neg && decide (m ≠ 0)) (hundredths m e) hmk
  refine ⟨?_, ?_, ?_⟩
  · simp only [checkout_done, htext, Outcome.done]
  · simp only [checkout_done, htext, Outcome.done,
      flash_message_text _ p hplain.1 hplain.2]
  · rw [abs_toRat_fin]
    exact hundredths_bound m e

/-- Instance of `checkout_done_spec`: the receipt of the specification scenario,
total `19.980000000000004`, is shown as `Checkout complete. Total: $19.98`. -/
theorem checkout_done_spec_witness :
    price1998 = .fin false 5623870034678908 (-48)
      ∧ hasMarkup "Checkout complete.".data = false
      ∧ |JsNum.toRat (.fin false 5623870034678908 (-48))| < 10 ^ 21
      ∧ (checkout_done (receipt "Checkout complete." price1998) usedPage).page.flash
          = [.str "Checkout complete. Total: $19.98"] :=
  ⟨by decide, by decide, (below_1e21_iff false 5623870034678908 (-48)).1 (by decide),
   (checkout_done_spec
      [("message", .str "Checkout complete."),
        ("total_price", .num (.fin false 5623870034678908 (-48)))]
      "Checkout complete." false 5623870034678908 (-48) usedPage rfl (by decide) rfl
      ((below_1e21_iff false 5623870034678908 (-48)).1 (by decide))).2.1⟩

/-- C9 as stated fails: for the total `1e21` the status area shows
`Checkout complete. Total: $1e+21`, not the two-decimal rendering
`1000000000000000000000.00`; and a message with a character reference or a
tag is parsed as markup, so the status area does not hold the message
itself. -/
theorem checkout_done_large_total :
    price1e21 = .fin false 7629394531250000 17
      ∧ (checkout_done (receipt "Checkout complete." price1e21) usedPage).thrown = none
      ∧ (checkout_done (receipt "Checkout complete." price1e21) usedPage).page.flash
          = [.str "Checkout complete. Total: $1e+21"]
      ∧ twoDecimals false (hundredths 7629394531250000 17) = "1000000000000000000000.00"
      ∧ "Checkout complete. Total: $1e+21"
          ≠ "Checkout complete." ++ " Total: $"
              ++ twoDecimals false (hundredths 7629394531250000 17)
      ∧ (checkout_done (receipt "Paid &amp; packed." price1998) usedPage).page.flash
          = [.html "Paid &amp; packed. Total: $19.98"]
      ∧ (checkout_done (receipt "Paid &amp; packed." price1998) usedPage).page.flash
          ≠ [.str "Paid &amp; packed. Total: $19.98"] := by
  refine ⟨by decide, by decide, rfl, by decide, by decide, by decide, by decide⟩

/-! ## Loose equality on decimal numerals -/

theorem digitChar_facts (d : Nat) (hd : d < 10) :
    digitValue (Nat.digitChar d) = some d
      ∧ isStrWhiteSpace (Nat.digitChar d) = false
      ∧ Nat.digitChar d ≠ 'e' ∧ Nat.digitChar d ≠ 'E' ∧ Nat.digitChar d ≠ '.'
      ∧ Nat.digitChar d ≠ '+' ∧ Nat.digitChar d ≠ '-' ∧ Nat.digitChar d ≠ 'I'
      ∧ Nat.digitChar d ≠ 'x' ∧ Nat.digitChar d ≠ 'X' ∧ Nat.digitChar d ≠ 'o'
      ∧ Nat.digitChar d ≠ 'O' ∧ Nat.digitChar d ≠ 'b' ∧ Nat.digitChar d ≠ 'B' := by
  interval_cases d <;> decide

theorem toDigits_mem (n : Nat) :
    ∀ c ∈ Nat.toDigits 10 n, ∃ d, d < 10 ∧ c = Nat.digitChar d := by
  induction n using Nat.strong_induction_on with
  | _ n ih =>
    intro c hc
    rw [toDigits_step] at hc
    split at hc
    · simp only [List.mem_singleton] at hc
      exact ⟨n % 10, Nat.mod_lt _ (by decide), hc⟩
    · next h0 =>
      rcases List.mem_append.1 hc with h | h
      · have hlt : n / 10 < n := by omega
        exact ih _ hlt c h
      · simp only [List.mem_singleton] at h
        exact ⟨n % 10, Nat.mod_lt _ (by decide), h⟩

/-- The digit fold of `parseDigits`. -/
theorem foldlM_toDigits (n : Nat) :
    (Nat.toDigits 10 n).foldlM (fun acc c =>
      match digitValue c with
      | some d => if d < 10 then some (acc * 10 + d) else none
      | none => none) 0 = some n := by
  induction n using Nat.strong_induction_on with
  | _ n ih =>
    have hd := (digitChar_facts (n % 10) (Nat.mod_lt _ (by decide))).1
    have hlt10 : n % 10 < 10 := Nat.mod_lt _ (by decide)
    rw [toDigits_step]
    split
    · next h0 =>
      simp only [List.foldlM_cons, List.foldlM_nil, hd, hlt10, if_true, Option.bind_eq_bind,
        Option.some_bind, Option.pure_def, Nat.zero_mul, Nat.zero_add]
      congr 1
      omega
    · next h0 =>
      have hlt : n / 10 < n := by omega
      rw [List.foldlM_append, ih _ hlt]
      simp only [List.foldlM_cons, List.foldlM_nil, hd, hlt10, if_true, Option.bind_eq_bind,
        Option.some_bind, Option.pure_def]
      congr 1
      omega

theorem parseDigits_toDigits (n : Nat) : parseDigits 10 (Nat.toDigits 10 n) = some n := by
  unfold parseDigits
  rw [if_neg (toDigits_ne_nil n)]
  exact foldlM_toDigits n

theorem dropWhile_of_head {α : Type} (p : α → Bool) (a : α) (l : List α) (h : p a = false) :
    (a :: l).dropWhile p = a :: l := by
  simp [List.dropWhile, h]

theorem trimWhiteSpace_digits (n : Nat) :
    trimWhiteSpace (Nat.toDigits 10 n) = Nat.toDigits 10 n := by
  have hmem := toDigits_mem n
  have hne := toDigits_ne_nil n
  have hws : ∀ c ∈ Nat.toDigits 10 n, isStrWhiteSpace c = false := by
    intro c hc
    obtain ⟨d, hd, rfl⟩ := hmem c hc
    exact (digitChar_facts d hd).2.1
  unfold trimWhiteSpace
  have h1 : (Nat.toDigits 10 n).dropWhile isStrWhiteSpace = Nat.toDigits 10 n := by
    cases hL : Nat.toDigits 10 n with
    | nil => exact absurd hL hne
    | cons a l => exact dropWhile_of_head _ a l (hws a (by rw [hL]; simp))
  rw [h1]
  have h2 : (Nat.toDigits 10 n).reverse.dropWhile isStrWhiteSpace
      = (Nat.toDigits 10 n).reverse := by
    cases hL : (Nat.toDigits 10 n).reverse with
    | nil => simp
    | cons a l =>
      have ha : a ∈ Nat.toDigits 10 n := by
        have : a ∈ (Nat.toDigits 10 n).reverse := by rw [hL]; simp
        simpa using this
      exact dropWhile_of_head _ a l (hws a ha)
  rw [h2, List.reverse_reverse]

theorem parseUnsignedDecimal_digits (n : Nat) :
    parseUnsignedDecimal (Nat.toDigits 10 n) = some (n, 0) := by
  have hmem := toDigits_mem n
  have hE : ∀ c ∈ Nat.toDigits 10 n, (c ≠ 'e' && c ≠ 'E') = true := by
    intro c hc
    obtain ⟨d, hd, rfl⟩ := hmem c hc
    have := digitChar_facts d hd
    simp [this.2.2.1, this.2.2.2.1]
  have hdot : ∀ c ∈ Nat.toDigits 10 n, (decide (c ≠ '.')) = true := by
    intro c hc
    obtain ⟨d, hd, rfl⟩ := hmem c hc
    have := digitChar_facts d hd
    simp [this.2.2.2.2.1]
  have ht1 : (Nat.toDigits 10 n).takeWhile (fun c => c ≠ 'e' && c ≠ 'E') = Nat.toDigits 10 n :=
    List.takeWhile_eq_self_iff.2 hE
  have hd1 : (Nat.toDigits 10 n).dropWhile (fun c => c ≠ 'e' && c ≠ 'E') = [] :=
    List.dropWhile_eq_nil_iff.2 hE
  have ht2 : (Nat.toDigits 10 n).takeWhile (fun c => decide (c ≠ '.')) = Nat.toDigits 10 n :=
    List.takeWhile_eq_self_iff.2 hdot
  have hd2 : (Nat.toDigits 10 n).dropWhile (fun c => decide (c ≠ '.')) = [] :=
    List.dropWhile_eq_nil_iff.2 hdot
  simp only [parseUnsignedDecimal, ht1, hd1, ht2, hd2, parseDigits_toDigits, Option.map_some']
  simp

theorem stringToNumber_digits (n : Nat) :
    stringToNumber (natDigits n) = JsNum.ofDecimal false n 0 := by
  have hmem := toDigits_mem n
  have hne := toDigits_ne_nil n
  have hbody : parseDecimalBody false (Nat.toDigits 10 n) = JsNum.ofDecimal false n 0 := by
    unfold parseDecimalBody
    have hInf : Nat.toDigits 10 n ≠ "Infinity".data := by
      intro h
      have hI : 'I' ∈ Nat.toDigits 10 n := by rw [h]; decide
      obtain ⟨d, hd, hc⟩ := hmem _ hI
      exact (digitChar_facts d hd).2.2.2.2.2.2.2.1 hc.symm
    rw [if_neg hInf, parseUnsignedDecimal_digits]
  unfold stringToNumber natDigits
  simp only [trimWhiteSpace_digits]
  cases hL : Nat.toDigits 10 n with
  | nil => exact absurd hL hne
  | cons a l =>
    rw [hL] at hbody hmem
    obtain ⟨d, hd, ha⟩ := hmem a (by simp)
    have hf := digitChar_facts d hd
    have hl : ∀ c r, l = c :: r → ∃ d', d' < 10 ∧ c = Nat.digitChar d' := by
      intro c r hcr
      exact hmem c (by rw [hcr]; simp)
    split
    · next heq => cases heq
    · next r heq =>
      injection heq with h1 h2
      obtain ⟨d', hd', hc⟩ := hl _ _ h2
      exact absurd hc.symm (digitChar_facts d' hd').2.2.2.2.2.2.2.2.1
    · next r heq =>
      injection heq with h1 h2
      obtain ⟨d', hd', hc⟩ := hl _ _ h2
      exact absurd hc.symm (digitChar_facts d' hd').2.2.2.2.2.2.2.2.2.1
    · next r heq =>
      injection heq with h1 h2
      obtain ⟨d', hd', hc⟩ := hl _ _ h2
      exact absurd hc.symm (digitChar_facts d' hd').2.2.2.2.2.2.2.2.2.2.1
    · next r heq =>
      injection heq with h1 h2
      obtain ⟨d', hd', hc⟩ := hl _ _ h2
      exact absurd hc.symm (digitChar_facts d' hd').2.2.2.2.2.2.2.2.2.2.2.1
    · next r heq =>
      injection heq with h1 h2
      obtain ⟨d', hd', hc⟩ := hl _ _ h2
      exact absurd hc.symm (digitChar_facts d' hd').2.2.2.2.2.2.2.2.2.2.2.2.1
    · next r heq =>
      injection heq with h1 h2
      obtain ⟨d', hd', hc⟩ := hl _ _ h2
      exact absurd hc.symm (digitChar_facts d' hd').2.2.2.2.2.2.2.2.2.2.2.2.2
    · next r heq =>
      injection heq with h1 h2
      exact absurd (ha ▸ h1) hf.2.2.2.2.2.1
    · next r heq =>
      injection heq with h1 h2
      exact absurd (ha ▸ h1) hf.2.2.2.2.2.2.1
    · exact hbody

theorem digitCount_le (fuel : Nat) : ∀ n k : Nat, n < 2 ^ k → digitCount 2 fuel n ≤ k := by
  induction fuel with
  | zero => intro n k _; simp [digitCount]
  | succ f ih =>
    intro n k h
    unfold digitCount
    split
    · omega
    · next hn =>
      cases k with
      | zero => simp at h; omega
      | succ k =>
        have : n / 2 < 2 ^ k := by
          rw [Nat.pow_succ] at h
          omega
        have := ih (n / 2) k this
        omega

theorem digitCount_pow_le (fuel : Nat) :
    ∀ n : Nat, 0 < n → n ≤ fuel →
      1 ≤ digitCount 2 fuel n ∧ 2 ^ (digitCount 2 fuel n - 1) ≤ n := by
  induction fuel with
  | zero => intro n h1 h2; omega
  | succ f ih =>
    intro n hpos hle
    unfold digitCount
    rw [if_neg (by omega)]
    refine ⟨by omega, ?_⟩
    simp only [Nat.add_sub_cancel]
    by_cases h2 : n / 2 = 0
    · have h0 : digitCount 2 f (n / 2) = 0 := by
        rw [h2]
        cases f <;> simp [digitCount]
      rw [h0]
      simpa using hpos
    · have hh := ih (n / 2) (by omega) (by omega)
      have hp : 2 ^ digitCount 2 f (n / 2) = 2 * 2 ^ (digitCount 2 f (n / 2) - 1) := by
        conv_lhs => rw [show digitCount 2 f (n / 2) = (digitCount 2 f (n / 2) - 1) + 1 by omega]
        rw [Nat.pow_succ, Nat.mul_comm]
      rw [hp]
      omega

theorem frac_pow_two_neg (j : Nat) : Frac.pow 2 (-(j : Int)) = ⟨1, 2 ^ j⟩ := by
  unfold Frac.pow
  by_cases hj : j = 0
  · subst hj
    simp
  · have : ¬ (0 : Int) ≤ -(j : Int) := by omega
    rw [if_neg this]
    simp

theorem floorLog_le_digitCount (q : Frac) :
    floorLog 2 q ≤ (digitCount 2 q.num q.num : Int) := by
  unfold floorLog
  simp only []
  split <;> omega

theorem floorLog_nat (n : Nat) (hn : 0 < n) :
    floorLog 2 ⟨n, 1⟩ = (digitCount 2 n n : Int) - 1 := by
  obtain ⟨h1, h2⟩ := digitCount_pow_le n n hn (Nat.le_refl n)
  have hone : digitCount 2 1 1 = 1 := by decide
  unfold floorLog
  simp only [hone]
  have hE : (digitCount 2 n n : Int) - ((1 : Nat) : Int) = ((digitCount 2 n n - 1 : Nat) : Int) := by
    omega
  rw [hE]
  have hle : Frac.le (Frac.pow 2 ((digitCount 2 n n - 1 : Nat) : Int)) ⟨n, 1⟩ = true := by
    unfold Frac.pow
    rw [if_pos (by omega)]
    simp only [Frac.le, Int.toNat_ofNat, Nat.mul_one, decide_eq_true_eq]
    exact h2
  rw [if_pos hle]
  omega

/-- For naturals below `2 ^ 53` a Number equals the Number of a decimal literal
exactly when the naturals are equal. -/
theorem numEq_ofDecimal (k n : Nat) (hn : n < 2 ^ 53) :
    numEq (JsNum.ofNat k) (JsNum.ofDecimal false n 0) = decide (k = n) := by
  have hq : Frac.mul ⟨n, 1⟩ (Frac.pow 10 0) = ⟨n, 1⟩ := by
    simp [Frac.mul, Frac.pow]
  have hp0 : Frac.pow 2 0 = ⟨1, 1⟩ := by simp [Frac.pow]
  unfold JsNum.ofDecimal roundToDouble
  rw [hq]
  by_cases h0 : n = 0
  · subst h0
    simp only [if_true, JsNum.ofNat, numEq, JsNum.mag, hp0, Frac.mul, Frac.le]
    by_cases hk : k = 0 <;> simp [hk]
  · have hpos : 0 < n := Nat.pos_of_ne_zero h0
    have hdc := digitCount_le n n 53 hn
    obtain ⟨hdc1, _⟩ := digitCount_pow_le n n hpos (Nat.le_refl n)
    have hulp : ulpExp ⟨n, 1⟩ = -((53 - digitCount 2 n n : Nat) : Int) := by
      unfold ulpExp
      rw [floorLog_nat n hpos]
      omega
    have hM : Frac.roundHalfEven (Frac.div ⟨n, 1⟩ ⟨1, 2 ^ (53 - digitCount 2 n n)⟩)
        = n * 2 ^ (53 - digitCount 2 n n) := by
      simp only [Frac.roundHalfEven, Frac.div, Nat.mul_one, Nat.one_mul, Nat.mod_one,
        Nat.div_one, Nat.mul_zero]
      simp
    have hsmall : ¬ (1024 : Int) ≤ floorLog 2
        (JsNum.mag (n * 2 ^ (53 - digitCount 2 n n)) (-((53 - digitCount 2 n n : Nat) : Int))) := by
      have hb := floorLog_le_digitCount
        (JsNum.mag (n * 2 ^ (53 - digitCount 2 n n)) (-((53 - digitCount 2 n n : Nat) : Int)))
      have hnum : (JsNum.mag (n * 2 ^ (53 - digitCount 2 n n))
          (-((53 - digitCount 2 n n : Nat) : Int))).num = n * 2 ^ (53 - digitCount 2 n n) := by
        simp [JsNum.mag, frac_pow_two_neg, Frac.mul]
      rw [hnum] at hb
      have hlt : n * 2 ^ (53 - digitCount 2 n n) < 2 ^ 106 := by
        have h1 : 2 ^ (53 - digitCount 2 n n) ≤ 2 ^ 53 :=
          Nat.pow_le_pow_right (by decide) (by omega)
        calc n * 2 ^ (53 - digitCount 2 n n) < 2 ^ 53 * 2 ^ 53 :=
              Nat.mul_lt_mul_of_lt_of_le hn h1 (by positivity)
          _ = 2 ^ 106 := by rw [← Nat.pow_add]
      have := digitCount_le (n * 2 ^ (53 - digitCount 2 n n)) _ 106 hlt
      omega
    simp only [Nat.mul_one, h0, if_false, hulp, frac_pow_two_neg, hM, hsmall]
    simp only [JsNum.ofNat, numEq, JsNum.mag, hp0, frac_pow_two_neg, Frac.mul, Frac.le,
      Nat.mul_one, Nat.one_mul, decide_True, Bool.true_or, Bool.and_true]
    have hpow : 0 < 2 ^ (53 - digitCount 2 n n) := by positivity
    by_cases hkn : k = n
    · subst hkn
      simp
    · simp only [hkn, decide_False, Bool.and_eq_false_iff, decide_eq_false_iff_not, not_le]
      rcases Nat.lt_or_gt_of_ne hkn with h | h
      · right
        exact Nat.mul_lt_mul_of_pos_right h hpow
      · left
        exact Nat.mul_lt_mul_of_pos_right h hpow

/-- Loose equality of a natural id below `2 ^ 53` with a decimal numeral is
equality of the numbers. -/
theorem looseEq_numeral (k n : Nat) (hn : n < 2 ^ 53) :
    Prim.looseEq (.num (JsNum.ofNat k)) (natDigits n) = decide (k = n) := by
  simp only [Prim.looseEq, stringToNumber_digits, numEq_ofDecimal k n hn]

/-! ## Add cart item -/

theorem sameItemId_item (item_id : String) (i : Item) :
    sameItemId item_id i.toJs = .ok (i.item_id.looseEq item_id) := by
  simp [sameItemId, Item.toJs, Item.fields, JsVal.get, List.lookup, prim_looseEqStr]

theorem findLoop_items (item_id : String) (items : List Item) :
    findLoop (sameItemId item_id) (items.map Item.toJs)
      = .ok (match items.find? (fun it => it.item_id.looseEq item_id) with
          | some it => it.toJs
          | none => .undefined) := by
  induction items with
  | nil => rfl
  | cons i rest ih =>
    simp only [List.map_cons, findLoop, sameItemId_item, List.find?_cons]
    cases h : i.item_id.looseEq item_id
    · simp only [ih]
    · rfl

/-- What the success callback of Add cart item does on a list of cart lines: it
looks for the first line whose `item_id` loosely equals (`==`) the item id text
read from the form at the click: when there is one, the inputs `user_id`,
`item_id`, `description`, `price`, `quantity`, `created_at` show that line;
when the list is empty or has none, the form is unchanged. In both cases the
status area holds `Item successfully added to cart!`. For an `item_id` that is
a natural number and form text that is the decimal numeral of a natural number
below `2 ^ 53`, loosely equal means equal as numbers. -/
theorem create_done_finds_by_text (item_id : String) (items : List Item) (p : Page) :
    (create_done item_id (.arr (items.map Item.toJs)) p).thrown = none
      ∧ (create_done item_id (.arr (items.map Item.toJs)) p).page.flash
          = [.str "Item successfully added to cart!"]
      ∧ (create_done item_id (.arr (items.map Item.toJs)) p).page.form
          = (match items.find? (fun it => it.item_id.looseEq item_id) with
            | some it => p.form.withItem it
            | none => p.form)
      ∧ (∀ k n : Nat, n < 2 ^ 53 →
          Prim.looseEq (.num (JsNum.ofNat k)) (natDigits n) = decide (k = n)) := by
  refine ⟨?_, ?_, ?_, fun k n hn => looseEq_numeral k n hn⟩
  all_goals
    cases items with
    | nil => rfl
    | cons i rest =>
      have hlen : (JsVal.num (JsNum.ofNat (List.map Item.toJs (i :: rest)).length)).gtZero
          = .ok true := by
        simp [JsVal.gtZero, JsVal.toNumber, JsNum.ofNat, numPos, Except.map]
      simp only [create_done, JsVal.get, if_true, hlen, JsVal.find, findLoop_items]
      cases hfind : (i :: rest).find? (fun it => it.item_id.looseEq item_id) with
      | none => rfl
      | some it =>
        have ht : it.toJs.truthy = true := rfl
        simp only [ht, if_true, update_form_data_toJs, Outcome.andThen]
        rfl

/-- The scenario of the specification: item id text `7` is submitted and the
server echoes the book line with `item_id` 7. -/
theorem create_done_scenario :
    (create_done "7" (.arr [bookItem.toJs]) (pageWith plainForm)).page.form
        = { plainForm with
            user_id := "42", item_id := "7", description := "Book", price := "9.99",
            quantity := "2", created_at := "2025-03-01T10:00:00" }
      ∧ (create_done "7" (.arr [bookItem.toJs]) (pageWith plainForm)).page.flash
          = [.str "Item successfully added to cart!"]
      ∧ 7 < 2 ^ 53
      ∧ Prim.looseEq (.num (JsNum.ofNat 8)) (natDigits 7) = false :=
  ⟨(create_done_finds_by_text "7" [bookItem] (pageWith plainForm)).2.2.1.trans (by decide),
   (create_done_finds_by_text "7" [bookItem] (pageWith plainForm)).2.1,
   by decide,
   (create_done_finds_by_text "7" [bookItem] (pageWith plainForm)).2.2.2 8 7 (by decide)⟩

/-- C10 (code defect). The click handler of Add cart item submits
`parseInt` of the item id text (source line 110), and its success callback,
commented "Find the item we just added" (line 127), compares each echoed
`item_id` with the raw text instead (line 128). For the text `7abc` the
submitted id is 7 and the server echoes the line with `item_id` 7, yet the
callback finds no line and leaves the form as it was; for the text `7e2` the
submitted id is 7 as well, and the callback shows the line with `item_id` 700
although the line with `item_id` 7 comes first. In both cases nothing is
raised and the status area holds `Item successfully added to cart!`. -/
theorem create_done_misses_added_item :
    numEq (create_data_item_id mistypedForm) (JsNum.ofNat 7) = true
      ∧ bookItem.item_id = .num (JsNum.ofNat 7)
      ∧ (create_done mistypedForm.item_id (.arr [bookItem.toJs])
          (create_click (pageWith mistypedForm))).thrown = none
      ∧ (create_done mistypedForm.item_id (.arr [bookItem.toJs])
          (create_click (pageWith mistypedForm))).page.form = mistypedForm
      ∧ mistypedForm ≠ mistypedForm.withItem bookItem
      ∧ (create_done mistypedForm.item_id (.arr [bookItem.toJs])
          (create_click (pageWith mistypedForm))).page.flash
          = [.str "Item successfully added to cart!"]
      ∧ numEq (create_data_item_id exponentForm) (JsNum.ofNat 7) = true
      ∧ bulkItem.item_id = .num (JsNum.ofNat 700)
      ∧ (create_done exponentForm.item_id (.arr [bookItem.toJs, bulkItem.toJs])
          (create_click (pageWith exponentForm))).page.form
          = exponentForm.withItem bulkItem
      ∧ exponentForm.withItem bulkItem ≠ exponentForm.withItem bookItem := by
  refine ⟨by decide, rfl, by decide, by decide, by decide, by decide, by decide, rfl,
    by decide, by decide⟩
/-! ## Request dispatch -/

theorem string_length_pos_iff (s : String) : 0 < s.length ↔ s ≠ "" := by
  constructor
  · intro h hs
    subst hs
    simp at h
  · intro h
    have := string_data_ne_nil h
    exact List.length_pos.2 this

/-- The URL the global Search handler requests, by the dispatch table. -/
theorem search_url_eq (f : Form) : search_url f = Action.url f .search := by
  have hq := search_queryString_eq f
  have hpos := intercalate_length_pos "&" (renderPairs id (activeFilters (searchFilters f)))
    (renderPairs_pos _ _)
  simp only [search_url, Action.url, Action.filters, Action.path]
  rw [hq]
  by_cases h : activeFilters (searchFilters f) = []
  · simp [h, renderPairs, String.intercalate]
  · have hne : renderPairs id (activeFilters (searchFilters f)) ≠ [] := by
      simpa [renderPairs] using h
    rw [if_pos (hpos.2 hne), if_neg h, String.append_assoc]

/-- The URL the Search-by-user handler requests, by the dispatch table. -/
theorem search_user_url_eq (f : Form) : search_user_url f = Action.url f .searchByUser := by
  have hq := search_user_queryString_eq f
  have hpos := intercalate_length_pos "&" (renderPairs id (activeFilters (searchUserFilters f)))
    (renderPairs_pos _ _)
  simp only [search_user_url, Action.url, Action.filters, Action.path]
  rw [hq]
  by_cases h : activeFilters (searchUserFilters f) = []
  · simp [h, renderPairs, String.intercalate]
  · have hne : renderPairs id (activeFilters (searchUserFilters f)) ≠ [] := by
      simpa [renderPairs] using h
    rw [if_pos (hpos.2 hne), if_neg h]
    simp only [String.append_assoc]

/-- C11. For every action of the dispatch table and every page whose form
passes the action's pre-check, the handler appends exactly one request to the
log, with the method of the action's row and its path filled from the form
inputs `user_id` and `item_id` (for the two searches followed by `?` and the
filters that are set). -/
theorem click_issues_one_request (a : Action) (p : Page)
    (h : a.preCheck p.form = true) :
    (a.click p).requests = p.requests ++ [⟨a.method, a.url p.form⟩] := by
  cases a
  case search =>
    simp only [Action.click, search_click, Page.ajax, Page.emptyFlash, Action.method,
      search_url_eq]
  case searchByUser =>
    have hu : p.form.user_id ≠ "" := by simpa [Action.preCheck] using h
    simp only [Action.click, search_user_click, hu, if_false, Page.ajax, Page.emptyFlash,
      Action.method, search_user_url_eq]
  case deleteItem =>
    have hu : p.form.user_id ≠ "" ∧ p.form.item_id ≠ "" := by simpa [Action.preCheck] using h
    simp [Action.click, delete_item_click, hu.1, hu.2, Page.ajax, Page.emptyFlash,
      Action.method, Action.url, Action.filters, Action.path, String.append_assoc]
  case retrieveOneItem =>
    have hu : p.form.user_id ≠ "" ∧ p.form.item_id ≠ "" := by simpa [Action.preCheck] using h
    simp [Action.click, retrieve_item_click, hu.1, hu.2, Page.ajax, Page.emptyFlash,
      Action.method, Action.url, Action.filters, Action.path, String.append_assoc]
  case retrieveCart =>
    have hu : p.form.user_id ≠ "" := by simpa [Action.preCheck] using h
    simp [Action.click, retrieve_click, hu, Page.ajax, Page.emptyFlash,
      Action.method, Action.url, Action.filters, Action.path]
  case retrieveItems =>
    have hu : p.form.user_id ≠ "" := by simpa [Action.preCheck] using h
    simp [Action.click, retrieve_items_click, hu, Page.ajax, Page.emptyFlash,
      Action.method, Action.url, Action.filters, Action.path, String.append_assoc]
  all_goals
    simp [Action.click, check_health, list_click, create_click, create_item_click, update_click,
      delete_click, checkout_click, Page.ajax, Page.emptyFlash, Action.method, Action.url,
      Action.filters, Action.path, String.append_assoc]

/-- Instance of `click_issues_one_request` on a fresh page with user 42, item 7
and a minimum price of 5: the three requests the dispatch table gives as
examples, and the per-user search. -/
theorem click_issues_one_request_witness :
    Action.preCheck (pageWith plainForm).form .deleteItem = true
      ∧ (delete_item_click (pageWith plainForm)).requests
          = [⟨"DELETE", "/api/shopcarts/42/items/7"⟩]
      ∧ (retrieve_click (pageWith plainForm)).requests = [⟨"GET", "/shopcarts/42"⟩]
      ∧ (checkout_click (pageWith plainForm)).requests
          = [⟨"POST", "/api/shopcarts/42/checkout"⟩]
      ∧ (search_user_click (pageWith plainForm)).requests
          = [⟨"GET", "/api/shopcarts/42?item_id=7&min-price=5"⟩] :=
  ⟨by decide,
   (click_issues_one_request .deleteItem (pageWith plainForm) (by decide)).trans (by decide),
   (click_issues_one_request .retrieveCart (pageWith plainForm) (by decide)).trans (by decide),
   (click_issues_one_request .checkout (pageWith plainForm) (by decide)).trans (by decide),
   (click_issues_one_request .searchByUser (pageWith plainForm) (by decide)).trans (by decide)⟩

/-! ## Failed requests -/

theorem flash_message_frame (message : JsVal) (p : Page) :
    (flash_message message p).form = p.form ∧ (flash_message message p).results = p.results := by
  unfold flash_message
  split <;> exact ⟨rfl, rfl⟩

theorem flashError_frame (responseJSON : JsVal) (fallback : String) (p : Page) :
    (flashError responseJSON fallback p).page.form = p.form
      ∧ (flashError responseJSON fallback p).page.results = p.results := by
  unfold flashError
  split
  · exact ⟨rfl, rfl⟩
  · exact flash_message_frame _ p

theorem flashErrorOpt_frame (responseJSON : JsVal) (fallback : String) (p : Page) :
    (flashErrorOpt responseJSON fallback p).page.form = p.form
      ∧ (flashErrorOpt responseJSON fallback p).page.results = p.results := by
  unfold flashErrorOpt
  split
  · exact ⟨rfl, rfl⟩
  · exact flash_message_frame _ p

/-- A click changes neither the form nor the results table. -/
theorem click_frame (a : Action) (p : Page) :
    (a.click p).form = p.form ∧ (a.click p).results = p.results := by
  cases a <;>
    simp only [Action.click, check_health, list_click, create_click, create_item_click,
      update_click, delete_item_click, retrieve_click, retrieve_items_click,
      retrieve_item_click, delete_click, search_click, search_user_click, checkout_click] <;>
    (repeat' split) <;> exact ⟨rfl, rfl⟩

/-- C12. After a failed request the results table is as it was before the
action, and so is the form, except that the failure callbacks of Retrieve cart,
Retrieve items and Retrieve one item clear it; this holds for every `responseJSON`
(also when the callback raises), and for the failure callbacks of the row
clicks. -/
theorem failure_frame (a : Action) (responseJSON : JsVal) (p : Page) :
    (a.fail responseJSON (a.click p)).page.results = p.results
      ∧ (a.fail responseJSON (a.click p)).page.form
          = (if a.clearsFormOnFailure then emptyForm else p.form)
      ∧ (get_item_details_fail responseJSON p).page.results = p.results
      ∧ (get_item_details_fail responseJSON p).page.form = p.form
      ∧ (item_click_fail responseJSON p).page.results = p.results
      ∧ (item_click_fail responseJSON p).page.form = p.form := by
  obtain ⟨hf, hr⟩ := click_frame a p
  refine ⟨?_, ?_, (flashErrorOpt_frame _ _ p).2, (flashErrorOpt_frame _ _ p).1,
    (flashErrorOpt_frame _ _ p).2, (flashErrorOpt_frame _ _ p).1⟩
  · rw [← hr]
    cases a <;>
      first
        | exact (flashError_frame _ _ _).2
        | exact (flashErrorOpt_frame _ _ _).2
        | rfl
  · cases a <;>
      simp only [Action.clearsFormOnFailure, Bool.false_eq_true, if_false, if_true] <;>
      first
        | exact ((flashError_frame _ _ _).1).trans hf
        | exact ((flashErrorOpt_frame _ _ _).1).trans hf
        | exact hf
        | exact (flashError_frame _ _ _).1

/-! ## The two table renderers -/

theorem rowMarkup_eq (cellIndent closeIndent : String) (i : Item) :
    rowMarkup cellIndent closeIndent i.item_id.text i.user_id.text i.description.text
        i.quantity.text i.price.text
      = Row.markup cellIndent closeIndent i.row := by
  have h : "<tr id=\"item_" = "<tr id=\"" ++ "item_" := by decide
  simp only [rowMarkup, Row.markup, Item.row, h, String.append_assoc]

theorem rowOf_item (cellIndent closeIndent : String) (i : Item) :
    rowOf cellIndent closeIndent i.toJs = .ok (Row.markup cellIndent closeIndent i.row) := by
  rw [← rowMarkup_eq]
  simp [rowOf, fieldText, Item.toJs, Item.fields, JsVal.get, List.lookup, prim_toStr,
    bind, Except.bind, pure, Except.pure]

theorem foldlM_appendSearchRow (is : List Item) (table : String) :
    (is.map Item.toJs).foldlM appendSearchRow table
      = .ok (table ++ String.join
          (is.map (fun i => Row.markup "                    " "                " i.row))) := by
  induction is generalizing table with
  | nil => simp [String.join, pure, Except.pure]
  | cons i rest ih =>
    simp only [List.map_cons, List.foldlM_cons, appendSearchRow, rowOf_item, bind,
      Except.bind, pure, Except.pure]
    rw [ih, string_join_cons, String.append_assoc]

theorem foldlM_appendCartRows (carts : List Cart) (table : String) :
    (carts.map Cart.toJs).foldlM appendCartRows table
      = .ok (table ++ String.join
          ((cartRows carts).map (Row.markup "                    " "                "))) := by
  induction carts generalizing table with
  | nil => simp [cartRows, String.join, pure, Except.pure]
  | cons c rest ih =>
    simp only [List.map_cons, List.foldlM_cons, appendCartRows, cart_get_items, bind,
      Except.bind, JsVal.forEachM, foldlM_appendSearchRow]
    rw [ih]
    simp [cartRows, List.flatMap_cons, string_join_append, String.append_assoc,
      Function.comp_def]

theorem leaves_carts (carts : List Cart) :
    (carts.map Entry.cart).flatMap Entry.leaves = carts.flatMap Cart.items := by
  induction carts with
  | nil => rfl
  | cons c rest ih => simp [List.flatMap_cons, Entry.leaves, ih]

theorem itemRow_eq (i : Item) : itemRow i = Row.markup "            " "        " i.row :=
  rowMarkup_eq _ _ i

/-- C14. For every sequence of Carts, each with its items list,
`formatSearchResults` and `display_search_results` render the same ordered
sequence of rows: both tables are the table head, the markup of the rows
`cartRows carts` in order, and the table foot, so they have the same number of
rows and their i-th rows carry the same `id`, `data-id`, `data-user-id` and the
same five cell texts; the two markups differ in the indentation inside a row
only. -/
theorem renderers_same_rows (carts : List Cart) (p : Page) :
    formatSearchResults (cartsBody carts)
        = .ok (tableHead
            ++ String.join ((cartRows carts).map (Row.markup "            " "        "))
            ++ tableFoot)
      ∧ (display_search_results (cartsBody carts) p).thrown = none
      ∧ (display_search_results (cartsBody carts) p).page.results
          = tableHead
            ++ String.join
                ((cartRows carts).map (Row.markup "                    " "                "))
            ++ tableFoot
      ∧ (cartRows carts).length = (carts.map (fun c => c.items.length)).sum := by
  have hfmt : formatSearchResults (cartsBody carts)
      = .ok (tableHead
          ++ String.join ((cartRows carts).map (Row.markup "            " "        "))
          ++ tableFoot) := by
    have h := (foldlM_appendEntryRows (carts.map Entry.cart) tableHead)
    rw [leaves_carts] at h
    have hmap : (carts.map Entry.cart).map Entry.toJs = carts.map Cart.toJs := by
      simp [Entry.toJs, Function.comp_def]
    rw [hmap] at h
    have hrows : (carts.flatMap Cart.items).map itemRow
        = (cartRows carts).map (Row.markup "            " "        ") := by
      simp [cartRows, Function.comp_def, itemRow_eq]
    rw [hrows] at h
    simp only [formatSearchResults, cartsBody, JsVal.isArray, if_true, JsVal.forEachM, h, bind,
      Except.bind, pure, Except.pure]
  have hdisp : searchResultsTable (cartsBody carts)
      = .ok (tableHead
          ++ String.join
              ((cartRows carts).map (Row.markup "                    " "                "))
          ++ tableFoot) := by
    simp only [searchResultsTable, cartsBody, JsVal.forEachM, foldlM_appendCartRows, bind,
      Except.bind, pure, Except.pure]
  refine ⟨hfmt, ?_, ?_, ?_⟩
  · simp only [display_search_results, hdisp]
  · simp only [display_search_results, hdisp]
  · simp [cartRows, List.length_flatMap, Function.comp_def]

/-! ## Search URLs -/

theorem splitAmp_ne_nil (cs : List Char) : splitAmp cs ≠ [] := by
  cases cs with
  | nil => simp [splitAmp]
  | cons c rest =>
    unfold splitAmp
    split
    · simp
    · split <;> simp

theorem splitAmp_no_amp (s : List Char) (h : '&' ∉ s) : splitAmp s = [s] := by
  induction s with
  | nil => rfl
  | cons c rest ih =>
    have hc : c ≠ '&' := fun hc => h (by simp [hc])
    have hr : '&' ∉ rest := fun hr => h (List.mem_cons_of_mem _ hr)
    simp [splitAmp, hc, ih hr]

theorem splitAmp_append (s t : List Char) (h : '&' ∉ s) :
    splitAmp (s ++ '&' :: t) = s :: splitAmp t := by
  induction s with
  | nil => simp [splitAmp]
  | cons c rest ih =>
    have hc : c ≠ '&' := fun hc => h (by simp [hc])
    have hr : '&' ∉ rest := fun hr => h (List.mem_cons_of_mem _ hr)
    simp [splitAmp, hc, ih hr]

theorem intercalate_go_shift (sep a t : String) (as : List String) :
    String.intercalate.go (a ++ t) sep as = a ++ String.intercalate.go t sep as := by
  induction as generalizing t with
  | nil => simp [String.intercalate.go]
  | cons b bs ih =>
    simp only [String.intercalate.go]
    rw [← ih]
    simp only [String.append_assoc]

theorem intercalate_cons_cons (sep a b : String) (rest : List String) :
    String.intercalate sep (a :: b :: rest)
      = a ++ (sep ++ String.intercalate sep (b :: rest)) := by
  simp only [String.intercalate, String.intercalate.go]
  rw [String.append_assoc, intercalate_go_shift, intercalate_go_shift]

/-- Splitting a joined text gives back its pieces when none of them has a `&`. -/
theorem splitAmp_intercalate (L : List String) (hne : L ≠ [])
    (h : ∀ x ∈ L, '&' ∉ x.data) :
    splitAmp (String.intercalate "&" L).data = L.map String.data := by
  induction L with
  | nil => exact absurd rfl hne
  | cons a rest ih =>
    cases rest with
    | nil =>
      simp only [String.intercalate, String.intercalate.go, List.map_cons, List.map_nil]
      exact splitAmp_no_amp _ (h a (by simp))
    | cons b rest' =>
      rw [intercalate_cons_cons]
      have hamp : ("&" : String).data = ['&'] := rfl
      simp only [String.data_append, hamp, List.singleton_append, List.map_cons]
      rw [splitAmp_append _ _ (h a (by simp))]
      have := ih (by simp) (fun x hx => h x (List.mem_cons_of_mem _ hx))
      rw [this]
      simp

theorem takeWhile_key (k v : List Char) (hk : '=' ∉ k) :
    (k ++ '=' :: v).takeWhile (fun c => c ≠ '=') = k := by
  induction k with
  | nil => simp [List.takeWhile]
  | cons c rest ih =>
    have hc : c ≠ '=' := fun hc => hk (by simp [hc])
    have hr : '=' ∉ rest := fun hr => hk (List.mem_cons_of_mem _ hr)
    have := ih hr
    simp only [List.cons_append, List.takeWhile, hc, ne_eq, not_false_eq_true, decide_True]
    exact congrArg (List.cons c) this

/-- The keys read from a joined list of pairs are the keys of the pairs, when
no key has `&` or `=` and no value has `&`. -/
theorem queryKeys_renderPairs (fs : List (String × String))
    (hk : ∀ kv ∈ fs, '&' ∉ kv.1.data ∧ '=' ∉ kv.1.data)
    (hv : ∀ kv ∈ fs, '&' ∉ kv.2.data) :
    queryKeys (String.intercalate "&" (renderPairs id fs)) = fs.map Prod.fst := by
  by_cases hnil : fs = []
  · subst hnil
    rfl
  · have hne : renderPairs id fs ≠ [] := by simpa [renderPairs] using hnil
    have hpos := (intercalate_length_pos "&" (renderPairs id fs) (renderPairs_pos _ _)).2 hne
    have hq : String.intercalate "&" (renderPairs id fs) ≠ "" :=
      (string_length_pos_iff _).1 hpos
    have hamp : ∀ x ∈ renderPairs id fs, '&' ∉ x.data := by
      intro x hx
      simp only [renderPairs, List.mem_map, id] at hx
      obtain ⟨kv, hkv, rfl⟩ := hx
      have heq : ("=" : String).data = ['='] := rfl
      simp only [String.data_append, heq, List.mem_append, List.mem_singleton, not_or]
      exact ⟨⟨(hk kv hkv).1, by decide⟩, hv kv hkv⟩
    unfold queryKeys
    rw [if_neg hq, splitAmp_intercalate _ hne hamp]
    simp only [renderPairs, List.map_map]
    apply List.map_congr_left
    intro kv hkv
    have heq : ("=" : String).data = ['='] := rfl
    simp only [Function.comp, id, String.data_append, heq, List.append_assoc,
      List.singleton_append]
    rw [takeWhile_key _ _ (hk kv hkv).2]

theorem searchFilters_keys_clean (f : Form) :
    ∀ kv ∈ searchFilters f, '&' ∉ kv.1.data ∧ '=' ∉ kv.1.data := by
  intro kv hkv
  simp only [searchFilters, List.mem_cons, List.mem_singleton, List.not_mem_nil, or_false] at hkv
  rcases hkv with h | h | h | h | h | h | h | h | h <;> subst h <;> dsimp only <;> decide

theorem userFiltersEmpty_iff (f : Form) :
    userFiltersEmpty f = true ↔ activeFilters (searchUserFilters f) = [] := by
  simp [userFiltersEmpty, activeFilters, searchUserFilters, searchFilters,
    List.filter_eq_nil_iff, and_assoc]

theorem allFiltersEmpty_iff (f : Form) :
    allFiltersEmpty f = true ↔ activeFilters (searchFilters f) = [] := by
  simp [allFiltersEmpty, userFiltersEmpty, activeFilters, searchFilters,
    List.filter_eq_nil_iff, and_assoc]

theorem searchUserFilters_keys (f : Form) :
    (searchUserFilters f).map Prod.fst
      = ["item_id", "price", "quantity", "price_range", "quantity_range", "min-price",
          "max-price", "created_at_range"] := rfl

/-- C13 (amended). For a form with a non-empty `user_id` the Search-by-user
click requests `/api/shopcarts/` followed by `user_id` verbatim, followed by `?`
and the query string exactly when one of the other eight filters is non-empty;
when all of them are empty the URL is that path with nothing appended, which
has no `?` provided `user_id` has none. The handler adds no `user_id` pair: the
query string is the non-empty other filters joined by `&`, so its keys are
theirs, never `user_id`, provided no filter value contains `&`. The global
Search URL is exactly `/api/shopcarts` when all nine filters are empty. -/
theorem search_user_url_shape (p : Page) (hu : p.form.user_id ≠ "") :
    (search_user_click p).requests = p.requests ++ [⟨"GET", search_user_url p.form⟩]
      ∧ search_user_url p.form
          = (if userFiltersEmpty p.form = true then "/api/shopcarts/" ++ p.form.user_id
            else "/api/shopcarts/" ++ p.form.user_id ++ "?" ++ search_user_queryString p.form)
      ∧ search_user_queryString p.form
          = String.intercalate "&" (renderPairs id (activeFilters (searchUserFilters p.form)))
      ∧ (userFiltersEmpty p.form = true → '?' ∉ p.form.user_id.data →
          '?' ∉ (search_user_url p.form).data)
      ∧ ((∀ kv ∈ searchUserFilters p.form, '&' ∉ kv.2.data) →
          queryKeys (search_user_queryString p.form)
              = (activeFilters (searchUserFilters p.form)).map Prod.fst
            ∧ "user_id" ∉ queryKeys (search_user_queryString p.form))
      ∧ (∀ g : Form, allFiltersEmpty g = true → search_url g = "/api/shopcarts") := by
  have hurl : search_user_url p.form
      = (if userFiltersEmpty p.form = true then "/api/shopcarts/" ++ p.form.user_id
        else "/api/shopcarts/" ++ p.form.user_id ++ "?" ++ search_user_queryString p.form) := by
    rw [search_user_url_eq, search_user_queryString_eq]
    simp only [Action.url, Action.filters, Action.path, userFiltersEmpty_iff]
  refine ⟨?_, hurl, search_user_queryString_eq p.form, ?_, ?_, ?_⟩
  · simp only [search_user_click, hu, if_false, Page.ajax, Page.emptyFlash]
  · intro he hq
    rw [hurl, if_pos he, String.data_append]
    intro hmem
    rcases List.mem_append.1 hmem with h | h
    · exact absurd h (by decide)
    · exact hq h
  · intro hv
    have hkeys : queryKeys (search_user_queryString p.form)
        = (activeFilters (searchUserFilters p.form)).map Prod.fst := by
      rw [search_user_queryString_eq]
      apply queryKeys_renderPairs
      · intro kv hkv
        exact searchFilters_keys_clean p.form kv
          (List.mem_of_mem_tail (List.mem_of_mem_filter hkv))
      · intro kv hkv
        exact hv kv (List.mem_of_mem_filter hkv)
    refine ⟨hkeys, ?_⟩
    rw [hkeys]
    intro hmem
    obtain ⟨kv, hkv, hfst⟩ := List.mem_map.1 hmem
    have hin : kv.1 ∈ (searchUserFilters p.form).map Prod.fst :=
      List.mem_map.2 ⟨kv, List.mem_of_mem_filter hkv, rfl⟩
    rw [hfst, searchUserFilters_keys] at hin
    exact absurd hin (by decide)
  · intro g hg
    rw [search_url_eq]
    simp only [Action.url, Action.filters, Action.path, (allFiltersEmpty_iff g).1 hg, if_true]

/-- Instance of `search_user_url_shape`: user 42 with item 7 and a minimum price
of 5, and user 42 with no other filter. -/
theorem search_user_url_shape_witness :
    (pageWith plainForm).form.user_id ≠ ""
      ∧ (search_user_click (pageWith plainForm)).requests
          = [⟨"GET", "/api/shopcarts/42?item_id=7&min-price=5"⟩]
      ∧ queryKeys (search_user_queryString plainForm) = ["item_id", "min-price"]
      ∧ search_user_url userOnlyForm = "/api/shopcarts/42"
      ∧ '?' ∉ (search_user_url userOnlyForm).data
      ∧ search_url emptyForm = "/api/shopcarts" :=
  ⟨by decide,
   (search_user_url_shape (pageWith plainForm) (by decide)).1.trans (by decide),
   ((search_user_url_shape (pageWith plainForm) (by decide)).2.2.2.2.1 (by decide)).1.trans
     (by decide),
   (search_user_url_shape (pageWith userOnlyForm) (by decide)).2.1.trans (by decide),
   (search_user_url_shape (pageWith userOnlyForm) (by decide)).2.2.2.1 (by decide) (by decide),
   (search_user_url_shape (pageWith userOnlyForm) (by decide)).2.2.2.2.2 emptyForm (by decide)⟩

/-- C13 as stated fails: with item id `1&user_id=7` the query string of Search by
user has a `user_id` key, and with user id `4?2` and no other filter the URL
has a `?`. -/
theorem search_user_url_injection :
    search_user_url injectedForm = "/api/shopcarts/42?item_id=1&user_id=7"
      ∧ search_user_queryString injectedForm = "item_id=1&user_id=7"
      ∧ queryKeys (search_user_queryString injectedForm) = ["item_id", "user_id"]
      ∧ "user_id" ∈ queryKeys (search_user_queryString injectedForm)
      ∧ questionForm.user_id ≠ ""
      ∧ userFiltersEmpty questionForm = true
      ∧ search_user_url questionForm = "/api/shopcarts/4?2"
      ∧ '?' ∈ (search_user_url questionForm).data := by
  decide


end Shopcarts
